import Mathlib

/-!
Verification of the cross-process synchronization subsystem of the
Scripture Forge platform extensions: the typed IPC message protocol
(`src/messages`), the SF-PDP worker process state machine
(`src/sf-pdp/src/index.ts`), the host-side child-process controller
(`src/scripture-forge/src/projects/child-process-handler.ts`), the realtime
backend connection manager (the `ScriptureForgeBackEndConnection` module),
and the throttled project directory cache
(`slingshot-project-data-provider-engine-factory.model.ts`).

The TypeScript sources are embedded shallowly: module/class state becomes an
explicit state record, each handler becomes a state-transition function
returning the successor state together with a list of observable effects
(messages written to the IPC channel, warnings, process exits, transport
opens, subscriptions, remote calls), and `Date.now()` / other ambient inputs
are passed explicitly.  Asynchronous functions are modelled either
sequentially (awaited values supplied by an outcome oracle) or, where a claim
is about interleavings, as small task machines with explicit suspension
points driven by a scheduler.
-/

/-! ## Message protocol (`src/messages`) -/

/-- Body of an IPC message: the `type` tag together with its type-specific
payload fields, one constructor per member of the closed set
`SfPdpIpcMessageTypes` (the `initialize` constructor is named
`initializeMsg`). -/
inductive SfMsgBody where
  | initializeMsg (authToken httpBaseUrl wssBaseUrl : String) (papiPort : Nat)
  | ping (uptimeSec : Nat)
  | pong
  | getProjects
  | projectResults (projectIds : List String)
  | error (error : String) (stack : Option String)
  | shutdown (reason : Option String)
  | authToken
deriving DecidableEq

/-- Wire value of the `type` field of a message body. -/
def SfMsgBody.typeTag : SfMsgBody → String
  | .initializeMsg _ _ _ _ => "initialize"
  | .ping _ => "ping"
  | .pong => "pong"
  | .getProjects => "getProjects"
  | .projectResults _ => "projectResults"
  | .error _ _ => "error"
  | .shutdown _ => "shutdown"
  | .authToken => "authToken"

/-- An IPC message (`sf-pdp-ipc-message.ts`): an `id`, a creation
`timestamp`, and the tagged payload. -/
structure SfPdpIpcMessage where
  id : Nat
  timestamp : Nat
  body : SfMsgBody
deriving DecidableEq

/-- Mirrors `createPingMessage` (`ping-message.ts`); `now` stands for
`Date.now()` and `uptimeSec` for `process.uptime()`. -/
def createPingMessage (id now uptimeSec : Nat) : SfPdpIpcMessage :=
  ⟨id, now, SfMsgBody.ping uptimeSec⟩

/-- Mirrors `createPongMessage` (`pong-message.ts`). -/
def createPongMessage (id now : Nat) : SfPdpIpcMessage :=
  ⟨id, now, SfMsgBody.pong⟩

/-- Mirrors `createGetProjectsMessage` (`get-projects-message.ts`). -/
def createGetProjectsMessage (id now : Nat) : SfPdpIpcMessage :=
  ⟨id, now, SfMsgBody.getProjects⟩

/-- Mirrors `createInitializeMessage` (`initialize-message.ts`). -/
def createInitializeMessage (id now : Nat)
    (authToken httpBaseUrl wssBaseUrl : String) (papiPort : Nat) : SfPdpIpcMessage :=
  ⟨id, now, SfMsgBody.initializeMsg authToken httpBaseUrl wssBaseUrl papiPort⟩

/-- Mirrors `createProjectResultsMessage` (`project-results-message.ts`). -/
def createProjectResultsMessage (id now : Nat) (projectIds : List String) : SfPdpIpcMessage :=
  ⟨id, now, SfMsgBody.projectResults projectIds⟩

/-- Mirrors `createErrorMessage` (`error-message.ts`), restricted to the
string overload used by the worker. -/
def createErrorMessage (id now : Nat) (error : String) (stack : Option String) : SfPdpIpcMessage :=
  ⟨id, now, SfMsgBody.error error stack⟩

/-- Mirrors `createShutdownMessage` (`shutdown-message.ts`). -/
def createShutdownMessage (id now : Nat) (reason : Option String) : SfPdpIpcMessage :=
  ⟨id, now, SfMsgBody.shutdown reason⟩

/-- Mirrors `isStaleMessage` (`sf-pdp-ipc-message.ts`). -/
def isStaleMessage (m : SfPdpIpcMessage) (now timeoutMs : Nat) : Bool :=
  timeoutMs < now - m.timestamp

/-! ## SF-PDP worker process (`src/sf-pdp/src/index.ts`) -/

/-- The `SfPdpConfig` record of the worker. -/
structure SfPdpConfig where
  httpBaseUrl : Option String
  wssBaseUrl : Option String
  papiPort : Option Nat
deriving DecidableEq

/-- Mutable state of an `SfPdpProcess` instance.  `rpcClient` records whether
an `RpcClient` instance has been stored, `pendingProjectResults` whether the
`AsyncVariable` for an outstanding `getProjects` round trip exists,
`isForked` whether `process.send` is available (the process was forked), and
`exitCode` whether `process.exit` has been called (and with which code). -/
structure WorkerState where
  nextMsgId : Nat
  config : SfPdpConfig
  receivedPing : Bool
  receivedPong : Bool
  rpcClient : Bool
  currentAuthToken : Option String
  pendingProjectResults : Bool
  isForked : Bool
  exitCode : Option Nat
deriving DecidableEq

/-- State of a freshly constructed `SfPdpProcess`. -/
def initialWorkerState (isForked : Bool) : WorkerState :=
  ⟨0, ⟨none, none, none⟩, false, false, false, none, false, isForked, none⟩

/-- Ambient inputs of one worker step: the current clock and process uptime,
and the outcomes of the three awaited sub-steps of initialization (RPC-client
connection to the PAPI web socket, connection to the SF backend, network
object registration). -/
structure WorkerEnv where
  now : Nat
  uptimeSec : Nat
  papiConnectOk : Bool
  backendConnectOk : Bool
  registerOk : Bool
deriving DecidableEq

/-- Observable effects of the worker: writes to the IPC channel, log
warnings, connection attempts, registration, and process exit. -/
inductive WorkerEffect where
  | sent (m : SfPdpIpcMessage)
  | droppedBeforeHandshake (m : SfPdpIpcMessage)
  | warnedUnexpectedMessage (m : SfPdpIpcMessage)
  | warnedAlreadyInitialized
  | warnedNoPendingResults (m : SfPdpIpcMessage)
  | resolvedProjectResults (m : SfPdpIpcMessage)
  | setOriginCalled (httpBaseUrl : String)
  | openedPapiConnection (port : Nat)
  | openedBackendConnection (wssBaseUrl authToken : String)
  | registeredPdpFactory
  | exited (code : Nat) (reason : String)
deriving DecidableEq

/-- Message types that `sendMessage` lets through before the ping/pong
handshake has completed (the `case` labels of its `switch`). -/
def SfMsgBody.isHandshakeSendable : SfMsgBody → Bool
  | .error _ _ => true
  | .ping _ => true
  | .pong => true
  | _ => false

/-- Mirrors `SfPdpProcess.exitProcess`: records the exit code; the `exited`
effect carries the logged reason. -/
def exitProcess (s : WorkerState) (reason : String) (code : Nat) :
    WorkerState × List WorkerEffect :=
  ({ s with exitCode := some code }, [WorkerEffect.exited code reason])

/-- Mirrors `SfPdpProcess.sendMessage`.  Before both a ping and a pong have
been received, any message other than `error`/`ping`/`pong` is dropped with
a warning.  When the process is not forked, `process.send` is absent and the
method throws, modelled by `Except.error`. -/
def sendMessage (s : WorkerState) (m : SfPdpIpcMessage) : Except String (List WorkerEffect) :=
  if (!s.receivedPing || !s.receivedPong) && !m.body.isHandshakeSendable then
    Except.ok [WorkerEffect.droppedBeforeHandshake m]
  else if !s.isForked then
    Except.error "Process is not forked, cannot send message"
  else
    Except.ok [WorkerEffect.sent m]

/-- Mirrors the async IIFE at the end of `SfPdpProcess.handleInitialize`: the
three sequential initialization steps, each fatal on failure with its own
exit code (102 control plane, 103 SF backend, 104 registration).  A
`papiPort` of `0` is falsy in TypeScript and so also hits the
`PAPI port is not configured` check. -/
def runInitializeSteps (s : WorkerState) (env : WorkerEnv) : WorkerState × List WorkerEffect :=
  match s.config.papiPort with
  | none => exitProcess s "Error initializing PAPI connection: PAPI port is not configured" 102
  | some 0 => exitProcess s "Error initializing PAPI connection: PAPI port is not configured" 102
  | some port =>
    let s1 := { s with rpcClient := true }
    if !env.papiConnectOk then
      exitProcess s1
        "Error initializing PAPI connection: Failed to connect RPC client to the PAPI web socket"
        102
    else
      let papiEffs := [WorkerEffect.openedPapiConnection port]
      match s1.config.wssBaseUrl, s1.currentAuthToken with
      | none, _ =>
        let r := exitProcess s1 "Error connecting to SF backend: WSS base URL is not configured" 103
        (r.1, papiEffs ++ r.2)
      | some _, none =>
        let r := exitProcess s1 "Error connecting to SF backend: Current auth token is not set" 103
        (r.1, papiEffs ++ r.2)
      | some wss, some tok =>
        if wss = "" then
          let r :=
            exitProcess s1 "Error connecting to SF backend: WSS base URL is not configured" 103
          (r.1, papiEffs ++ r.2)
        else if tok = "" then
          let r :=
            exitProcess s1 "Error connecting to SF backend: Current auth token is not set" 103
          (r.1, papiEffs ++ r.2)
        else if !env.backendConnectOk then
          let r := exitProcess s1 "Error connecting to SF backend: connect failed" 103
          (r.1, papiEffs ++ r.2)
        else
          let backendEffs := papiEffs ++ [WorkerEffect.openedBackendConnection wss tok]
          if !env.registerOk then
            let r := exitProcess s1 "Error registering PDP factory: register failed" 104
            (r.1, backendEffs ++ r.2)
          else
            (s1, backendEffs ++ [WorkerEffect.registeredPdpFactory])

/-- Mirrors `SfPdpProcess.handleInitialize`: the duplicate-`initialize` guard
(config or RPC client already set) warns and replies with a single `error`
message; the first `initialize` stores the credentials and endpoints, calls
`setOrigin`, and runs the three async initialization steps. -/
def handleInitializeMessage (s : WorkerState) (env : WorkerEnv)
    (authToken httpBaseUrl wssBaseUrl : String) (papiPort : Nat) :
    Except String (WorkerState × List WorkerEffect) :=
  if s.config.papiPort.isSome || s.rpcClient then do
    let id := s.nextMsgId
    let s1 := { s with nextMsgId := id + 1 }
    let effs ← sendMessage s1 (createErrorMessage id env.now "Already initialized" none)
    Except.ok (s1, WorkerEffect.warnedAlreadyInitialized :: effs)
  else
    let s1 := { s with
      currentAuthToken := some authToken,
      config := ⟨some httpBaseUrl, some wssBaseUrl, some papiPort⟩ }
    let r := runInitializeSteps s1 env
    Except.ok (r.1, WorkerEffect.setOriginCalled httpBaseUrl :: r.2)

/-- Mirrors `SfPdpProcess.handlePing`: marks the ping as received and replies
with a pong carrying the id of the received ping (`createPongMessage(message.id)`). -/
def handlePing (s : WorkerState) (env : WorkerEnv) (m : SfPdpIpcMessage) :
    Except String (WorkerState × List WorkerEffect) := do
  let s1 := { s with receivedPing := true }
  let effs ← sendMessage s1 (createPongMessage m.id env.now)
  Except.ok (s1, effs)

/-- Mirrors `SfPdpProcess.handlePong`: marks the pong as received, no reply. -/
def handlePong (s : WorkerState) : Except String (WorkerState × List WorkerEffect) :=
  Except.ok ({ s with receivedPong := true }, [])

/-- Mirrors `SfPdpProcess.handleProjectResults`. -/
def handleProjectResults (s : WorkerState) (m : SfPdpIpcMessage) :
    Except String (WorkerState × List WorkerEffect) :=
  if s.pendingProjectResults then
    Except.ok ({ s with pendingProjectResults := false },
      [WorkerEffect.resolvedProjectResults m])
  else
    Except.ok (s, [WorkerEffect.warnedNoPendingResults m])

/-- Mirrors `SfPdpProcess.handleShutdown`: graceful exit with code 0. -/
def handleShutdown (s : WorkerState) (reason : Option String) :
    Except String (WorkerState × List WorkerEffect) :=
  Except.ok (exitProcess s
    ("received shutdown message (" ++ reason.getD "no reason provided" ++ ")") 0)

/-- Mirrors `SfPdpProcess.handleMessage`: dispatch on the message type; the
`default` branch (covering `getProjects`, `error` and `authToken` arriving at
the worker) only logs a warning. -/
def handleMessage (s : WorkerState) (env : WorkerEnv) (m : SfPdpIpcMessage) :
    Except String (WorkerState × List WorkerEffect) :=
  match m.body with
  | .initializeMsg authToken httpBaseUrl wssBaseUrl papiPort =>
    handleInitializeMessage s env authToken httpBaseUrl wssBaseUrl papiPort
  | .ping _ => handlePing s env m
  | .pong => handlePong s
  | .projectResults _ => handleProjectResults s m
  | .shutdown reason => handleShutdown s reason
  | _ => Except.ok (s, [WorkerEffect.warnedUnexpectedMessage m])

/-- Mirrors `SfPdpProcess.getProjects` (called over RPC by the PDP factory):
reuses the pending `AsyncVariable` when one exists, otherwise creates one and
sends a `getProjects` message with a fresh id. -/
def workerGetProjects (s : WorkerState) (env : WorkerEnv) :
    Except String (WorkerState × List WorkerEffect) :=
  if s.pendingProjectResults then
    Except.ok (s, [])
  else do
    let s1 := { s with pendingProjectResults := true }
    let id := s1.nextMsgId
    let s2 := { s1 with nextMsgId := id + 1 }
    let effs ← sendMessage s2 (createGetProjectsMessage id env.now)
    Except.ok (s2, effs)

/-- External stimuli of the worker process: an IPC message event, an
RPC-triggered call of `getProjects`, and the termination signals. -/
inductive WorkerInput where
  | ipc (m : SfPdpIpcMessage)
  | callGetProjects
  | sigint
  | sigterm
deriving DecidableEq

/-- One reaction of the worker event loop.  The IPC branch mirrors the
listener installed in `start`: an exception escaping `handleMessage` exits
the process with code 101.  Once the process has exited, nothing further
happens. -/
def workerStep (s : WorkerState) (inp : WorkerInput) (env : WorkerEnv) :
    WorkerState × List WorkerEffect :=
  if s.exitCode.isSome then (s, [])
  else
    match inp with
    | .ipc m =>
      match handleMessage s env m with
      | .ok r => r
      | .error e => exitProcess s ("error handling IPC message: " ++ e) 101
    | .callGetProjects =>
      match workerGetProjects s env with
      | .ok r => r
      | .error _ => (s, [])
    | .sigint => exitProcess s "received SIGINT" 0
    | .sigterm => exitProcess s "received SIGTERM" 0

/-- Mirrors `SfPdpProcess.start`: refuses to run when not forked (exit code
100), installs the listeners, and sends the initial `ping`.  The `.error`
branch of the final send is unreachable because `process.send` was checked
at the top of `start`. -/
def workerStart (s : WorkerState) (env : WorkerEnv) : WorkerState × List WorkerEffect :=
  if !s.isForked then
    exitProcess s "process is not forked, cannot continue" 100
  else
    let id := s.nextMsgId
    let s1 := { s with nextMsgId := id + 1 }
    match sendMessage s1 (createPingMessage id env.now env.uptimeSec) with
    | .ok effs => (s1, effs)
    | .error _ => (s1, [])

/-- Runs the worker event loop over a list of stimuli. -/
def workerRun (s : WorkerState) :
    List (WorkerInput × WorkerEnv) → WorkerState × List WorkerEffect
  | [] => (s, [])
  | (inp, env) :: rest =>
    let r := workerStep s inp env
    let r' := workerRun r.1 rest
    (r'.1, r.2 ++ r'.2)

/-- A complete worker execution: construct the process, `start` it, then feed
it the stimulus trace. -/
def workerBoot (isForked : Bool) (env0 : WorkerEnv)
    (trace : List (WorkerInput × WorkerEnv)) : WorkerState × List WorkerEffect :=
  let r := workerStart (initialWorkerState isForked) env0
  let r' := workerRun r.1 trace
  (r'.1, r.2 ++ r'.2)

/-- Messages actually written to the IPC channel among a list of effects. -/
def sentMessages (effs : List WorkerEffect) : List SfPdpIpcMessage :=
  effs.filterMap fun e =>
    match e with
    | .sent m => some m
    | _ => none

/-- Exit codes among a list of effects. -/
def exitedCodes (effs : List WorkerEffect) : List Nat :=
  effs.filterMap fun e =>
    match e with
    | .exited c _ => some c
    | _ => none

/-! ## Host-side process controller
(`src/scripture-forge/src/projects/child-process-handler.ts`) -/

/-- Module-level state of the child-process handler: whether
`initializeChildProcess` has stored the child process and the
`nextMessageId` counter. -/
structure HostState where
  childProcessSet : Bool
  nextMessageId : Nat
deriving DecidableEq

/-- State of the freshly loaded module. -/
def initialHostState : HostState := ⟨false, 0⟩

/-- Ambient inputs of one host step: the clock and uptime, the project list
returned by `sfApi.getProjects()` (`none` when the API did not return an
array; each entry carries the nullable `projectId`), and the authentication
collaborator outcomes used by `sendInitializeMessage`. -/
structure HostEnv where
  now : Nat
  uptimeSec : Nat
  apiProjects : Option (List (Option String))
  loggedIn : Bool
  loginOk : Bool
  accessToken : Option String
  domain : String
  webSocketUrl : String
deriving DecidableEq

/-- Observable effects of the host controller. -/
inductive HostEffect where
  | sent (m : SfPdpIpcMessage)
  | warnedUnexpectedMessage (m : SfPdpIpcMessage)
  | threw (msg : String)
deriving DecidableEq

/-- Hardcoded PAPI websocket port of the handler. -/
def WEBSOCKET_PORT : Nat := 8876

/-- Mirrors `getNextMessageId`: pre-increments the module counter. -/
def getNextMessageId (s : HostState) : Nat × HostState :=
  (s.nextMessageId + 1, { s with nextMessageId := s.nextMessageId + 1 })

/-- Mirrors `sendInitializeMessage`: expands the server configuration,
ensures a login, fetches the access token and sends `initialize`.  The
thrown errors of the source become `threw` effects (the rejection of the
async handler is unhandled, the process continues). -/
def sendInitializeMessage (s : HostState) (env : HostEnv) : HostState × List HostEffect :=
  if !env.loggedIn && !env.loginOk then
    (s, [HostEffect.threw "Failed to log in to Scripture Forge"])
  else
    match env.accessToken with
    | none => (s, [HostEffect.threw "No auth token available for SF PDP"])
    | some tok =>
      if tok = "" then (s, [HostEffect.threw "No auth token available for SF PDP"])
      else
        let r := getNextMessageId s
        (r.2, [HostEffect.sent
          (createInitializeMessage r.1 env.now tok env.domain env.webSocketUrl WEBSOCKET_PORT)])

/-- Mirrors `sendProjectResultsMessage`: collects the non-null `projectId`s
of the API result (empty when the API did not return an array) and replies
with `projectResults` under a fresh id. -/
def sendProjectResultsMessage (s : HostState) (env : HostEnv) : HostState × List HostEffect :=
  let projectIds := (env.apiProjects.getD []).filterMap id
  let r := getNextMessageId s
  (r.2, [HostEffect.sent (createProjectResultsMessage r.1 env.now projectIds)])

/-- Mirrors the host `handleMessage`: `getProjects` from the worker is
answered with `projectResults`, `ping` with a fresh-id `pong`, `pong`
triggers `initialize`; everything else only warns. -/
def hostStep (s : HostState) (env : HostEnv) (m : SfPdpIpcMessage) :
    HostState × List HostEffect :=
  match m.body with
  | .getProjects => sendProjectResultsMessage s env
  | .ping _ =>
    let r := getNextMessageId s
    (r.2, [HostEffect.sent (createPongMessage r.1 env.now)])
  | .pong => sendInitializeMessage s env
  | _ => (s, [HostEffect.warnedUnexpectedMessage m])

/-- Mirrors `initializeChildProcess`: throws when a child process is already
set, otherwise stores it, installs the listeners, and sends the first
`ping`. -/
def initializeChildProcess (s : HostState) (env : HostEnv) :
    Except String (HostState × List HostEffect) :=
  if s.childProcessSet then Except.error "Child process is already set"
  else
    let s1 := { s with childProcessSet := true }
    let r := getNextMessageId s1
    Except.ok (r.2, [HostEffect.sent (createPingMessage r.1 env.now env.uptimeSec)])

/-- Runs the host message handler over a trace of worker messages. -/
def hostRun (s : HostState) :
    List (SfPdpIpcMessage × HostEnv) → HostState × List HostEffect
  | [] => (s, [])
  | (m, env) :: rest =>
    let r := hostStep s env m
    let r' := hostRun r.1 rest
    (r'.1, r.2 ++ r'.2)

/-- A complete host execution: `initializeChildProcess` on the fresh module
state followed by the trace of incoming worker messages. -/
def hostBoot (env0 : HostEnv) (trace : List (SfPdpIpcMessage × HostEnv)) :
    HostState × List HostEffect :=
  match initializeChildProcess initialHostState env0 with
  | .ok r =>
    let r' := hostRun r.1 trace
    (r'.1, r.2 ++ r'.2)
  | .error _ => (initialHostState, [])

/-- Messages the host wrote to the IPC channel. -/
def hostSentMessages (effs : List HostEffect) : List SfPdpIpcMessage :=
  effs.filterMap fun e =>
    match e with
    | .sent m => some m
    | _ => none

/-! ## Realtime backend connection manager
(`scripture-forge-back-end-connection.ts`, the module exported as
`ScriptureForgeBackEndConnection`) -/

/-- ShareDB collection name for project documents (`rce-utils.ts`). -/
def SCRIPTURE_FORGE_PROJECTS_DOCUMENT : String := "sf_projects"

/-- ShareDB collection name for chapter documents (`rce-utils.ts`). -/
def SCRIPTURE_FORGE_CHAPTER_DOCUMENT : String := "texts"

/-- Mirrors `createTextId` (`rce-utils.ts`). -/
def createTextId (projectId : String) (book : String) (chapterNum : Nat) : String :=
  projectId ++ ":" ++ book ++ ":" ++ toString chapterNum ++ ":target"

/-- A chapter entry of a project document (`scripture-forge.d.ts`). -/
structure Chapter where
  number : Nat
  isValid : Bool
deriving DecidableEq

/-- A text entry of a project document. -/
structure TextInfo where
  bookNum : Nat
  chapters : List Chapter
deriving DecidableEq

/-- The two fields of a `SerializedVerseRef` that the connection manager
reads. -/
structure SerializedVerseRef where
  book : String
  chapterNum : Nat
deriving DecidableEq

/-- A ShareDB `Connection`, identified by the order in which the transport
was opened (one per successful socket open). -/
structure SfConnection where
  connId : Nat
deriving DecidableEq

/-- A ShareDB document handle as cached by the connection manager; `connId`
records the connection that produced it, `texts` the `data.texts` payload of
a fetched project document. -/
structure DocHandle where
  collection : String
  docId : String
  connId : Nat
  texts : List TextInfo
deriving DecidableEq

/-- State of the connect `AsyncVariable`: pending, resolved with the
connection, or rejected. -/
inductive ConnectionAV where
  | pending
  | resolved (conn : SfConnection)
  | rejected (reason : String)
deriving DecidableEq

/-- Module-level state of the backend connection module: the `initialized`
rich-text-registration flag, `connectionAsyncVariable`, the websocket
adapter (kept as the url it was opened with), and the two document caches.
`nextConnId` numbers the connections handed out by socket-open events. -/
structure ConnState where
  initialized : Bool
  connectionAV : Option ConnectionAV
  socket : Option String
  nextConnId : Nat
  projectDocuments : List (String × DocHandle)
  chapterDeltas : List (String × DocHandle)
deriving DecidableEq

/-- State of the freshly loaded module. -/
def initialConnState : ConnState := ⟨false, none, none, 1, [], []⟩

/-- Observable effects of the connection manager. -/
inductive ConnEffect where
  | openedSocket (url : String)
  | rejectedPendingConnect (reason : String)
  | closedConnection (connId : Nat)
  | warnedCloseError (reason : String)
  | closedSocket
  | subscribed (collection docId : String)
  | fetched (collection docId : String)
  | loggedError (msg : String)
deriving DecidableEq

/-- Mirrors `connect`: when `connectionAsyncVariable` already exists the call
awaits that same promise and returns (the arguments are not used, no second
transport is opened); otherwise it registers the rich-text type, creates the
pending `AsyncVariable`, and opens one websocket adapter. -/
def connect (s : ConnState) (wssBaseUrl accessToken : String) : ConnState × List ConnEffect :=
  if s.connectionAV.isSome then (s, [])
  else
    let url := wssBaseUrl ++ "/?access_token=" ++ accessToken
    ({ s with
        initialized := true,
        connectionAV := some ConnectionAV.pending,
        socket := some url },
     [ConnEffect.openedSocket url])

/-- Mirrors the `socket.onopen` handler installed by `connect`: resolves the
pending connect `AsyncVariable` with a new `Connection` (resolving a settled
variable is a no-op). -/
def socketOnOpen (s : ConnState) : ConnState × List ConnEffect :=
  match s.socket, s.connectionAV with
  | some _, some ConnectionAV.pending =>
    ({ s with
        connectionAV := some (ConnectionAV.resolved ⟨s.nextConnId⟩),
        nextConnId := s.nextConnId + 1 }, [])
  | _, _ => (s, [])

/-- Mirrors the `socket.onerror` handler installed by `connect`: logs, and
rejects the connect `AsyncVariable` only when it has not settled. -/
def socketOnError (s : ConnState) (message : String) : ConnState × List ConnEffect :=
  let errorMsg := "Error occurred in RCE stream with SF PDP: " ++ message
  match s.connectionAV with
  | some ConnectionAV.pending =>
    ({ s with connectionAV := some (ConnectionAV.rejected errorMsg) },
     [ConnEffect.loggedError errorMsg])
  | _ => (s, [ConnEffect.loggedError errorMsg])

/-- Mirrors `disconnect`: rejects an in-flight connect attempt with
`Disconnecting`, closes a resolved connection (warning if the stored promise
was rejected), drops the `AsyncVariable`, closes the socket, and clears
`projectDocuments`.  The source never clears `chapterDeltas`, and neither
does this model. -/
def disconnect (s : ConnState) : ConnState × List ConnEffect :=
  let avEffs :=
    match s.connectionAV with
    | some ConnectionAV.pending => [ConnEffect.rejectedPendingConnect "Disconnecting"]
    | some (ConnectionAV.resolved conn) => [ConnEffect.closedConnection conn.connId]
    | some (ConnectionAV.rejected reason) => [ConnEffect.warnedCloseError reason]
    | none => []
  let socketEffs :=
    match s.socket with
    | some _ => [ConnEffect.closedSocket]
    | none => []
  ({ s with connectionAV := none, socket := none, projectDocuments := [] },
   avEffs ++ socketEffs)

/-- Outcome of awaiting one `doc.subscribe` round trip, together with the
`data.texts` contents delivered by the fetch when it succeeds. -/
inductive SubscribeOutcome where
  | success (texts : List TextInfo)
  | failure (msg : String)
deriving DecidableEq

/-- Sequential (single-caller) semantics of `getProjectDoc`: cached handles
are returned as is; otherwise the connect `AsyncVariable` is awaited (a
variable nobody will settle times out, a rejected one propagates its
reason), one subscribe+fetch pair is issued, and the handle is cached only
on subscription success. -/
def getProjectDoc (s : ConnState) (projectId : String) (subOutcome : SubscribeOutcome) :
    ConnState × List ConnEffect × Except String DocHandle :=
  match s.projectDocuments.lookup projectId with
  | some doc => (s, [], Except.ok doc)
  | none =>
    match s.connectionAV with
    | none => (s, [], Except.error "Must call connect() before calling this function")
    | some ConnectionAV.pending =>
      (s, [], Except.error "Timed out waiting for SF PDP connect")
    | some (ConnectionAV.rejected reason) => (s, [], Except.error reason)
    | some (ConnectionAV.resolved conn) =>
      let effs := [ConnEffect.subscribed SCRIPTURE_FORGE_PROJECTS_DOCUMENT projectId,
                   ConnEffect.fetched SCRIPTURE_FORGE_PROJECTS_DOCUMENT projectId]
      match subOutcome with
      | .failure msg =>
        let errorMsg := "SF PDP error subscribing to project: " ++ msg
        (s, effs ++ [ConnEffect.loggedError errorMsg], Except.error errorMsg)
      | .success texts =>
        let doc : DocHandle := ⟨SCRIPTURE_FORGE_PROJECTS_DOCUMENT, projectId, conn.connId, texts⟩
        ({ s with projectDocuments := (projectId, doc) :: s.projectDocuments },
         effs, Except.ok doc)

/-- Sequential semantics of `getChapterDoc`: a cached chapter handle is
returned immediately; otherwise the project document is obtained first, the
verse reference is validated against its `texts` metadata
(`Canon.bookNumberToId` is the external book-number map, passed in), and one
subscribe+fetch pair for the chapter document is issued and cached on
success. -/
def getChapterDoc (s : ConnState) (bookNumberToId : Nat → String)
    (projectId : String) (ref : SerializedVerseRef)
    (projectOutcome chapterOutcome : SubscribeOutcome) :
    ConnState × List ConnEffect × Except String DocHandle :=
  let textId := createTextId projectId ref.book ref.chapterNum
  match s.chapterDeltas.lookup textId with
  | some doc => (s, [], Except.ok doc)
  | none =>
    if s.connectionAV.isNone then
      (s, [], Except.error "Must call connect() before calling this function")
    else
      let rp := getProjectDoc s projectId projectOutcome
      match rp.2.2 with
      | .error e => (rp.1, rp.2.1, Except.error e)
      | .ok project =>
        if (project.texts.find? fun textInfo =>
              bookNumberToId textInfo.bookNum == ref.book &&
              (textInfo.chapters.find? fun chapter =>
                chapter.number == ref.chapterNum && chapter.isValid).isSome).isNone then
          (rp.1, rp.2.1,
           Except.error ("Verse ref " ++ ref.book ++ " " ++ toString ref.chapterNum ++
             " not found in project " ++ projectId))
        else
          match rp.1.connectionAV with
          | some (ConnectionAV.resolved conn) =>
            let effs := [ConnEffect.subscribed SCRIPTURE_FORGE_CHAPTER_DOCUMENT textId,
                         ConnEffect.fetched SCRIPTURE_FORGE_CHAPTER_DOCUMENT textId]
            match chapterOutcome with
            | .failure msg =>
              let errorMsg := "SF PDP error subscribing to document: " ++ msg
              (rp.1, rp.2.1 ++ effs ++ [ConnEffect.loggedError errorMsg], Except.error errorMsg)
            | .success _ =>
              let doc : DocHandle := ⟨SCRIPTURE_FORGE_CHAPTER_DOCUMENT, textId, conn.connId, []⟩
              ({ rp.1 with chapterDeltas := (textId, doc) :: rp.1.chapterDeltas },
               rp.2.1 ++ effs, Except.ok doc)
          | _ => (rp.1, rp.2.1, Except.error "Timed out waiting for SF PDP connect")

deriving instance DecidableEq for Except

/-- Suspension-point machine for one in-flight `getProjectDoc` call: after
the synchronous cache/guard check the call awaits the connect
`AsyncVariable`, then issues its subscribe+fetch pair, then awaits its own
per-call subscription `AsyncVariable`. -/
inductive GetDocPhase where
  | entry
  | awaitConn
  | awaitSub (doc : DocHandle)
  | done (result : Except String DocHandle)
deriving DecidableEq

/-- One in-flight `getProjectDoc` call. -/
structure GetDocTask where
  projectId : String
  phase : GetDocPhase
deriving DecidableEq

/-- One scheduler step of an in-flight `getProjectDoc` call.  This is the
same control flow as `getProjectDoc`, cut at the `await` points; a task
awaiting a still-pending connection does not advance. -/
def getProjectDocTaskStep (s : ConnState) (t : GetDocTask) (subOutcome : SubscribeOutcome) :
    ConnState × GetDocTask × List ConnEffect :=
  match t.phase with
  | .done _ => (s, t, [])
  | .entry =>
    match s.projectDocuments.lookup t.projectId with
    | some doc => (s, { t with phase := GetDocPhase.done (Except.ok doc) }, [])
    | none =>
      if s.connectionAV.isNone then
        (s, { t with phase :=
          GetDocPhase.done (Except.error "Must call connect() before calling this function") }, [])
      else (s, { t with phase := GetDocPhase.awaitConn }, [])
  | .awaitConn =>
    match s.connectionAV with
    | some (ConnectionAV.resolved conn) =>
      let doc : DocHandle := ⟨SCRIPTURE_FORGE_PROJECTS_DOCUMENT, t.projectId, conn.connId, []⟩
      (s, { t with phase := GetDocPhase.awaitSub doc },
       [ConnEffect.subscribed SCRIPTURE_FORGE_PROJECTS_DOCUMENT t.projectId,
        ConnEffect.fetched SCRIPTURE_FORGE_PROJECTS_DOCUMENT t.projectId])
    | some (ConnectionAV.rejected reason) =>
      (s, { t with phase := GetDocPhase.done (Except.error reason) }, [])
    | some ConnectionAV.pending => (s, t, [])
    | none => (s, { t with phase := GetDocPhase.done (Except.error "Disconnecting") }, [])
  | .awaitSub doc =>
    match subOutcome with
    | .success texts =>
      let doc1 := { doc with texts := texts }
      ({ s with projectDocuments := (t.projectId, doc1) :: s.projectDocuments },
       { t with phase := GetDocPhase.done (Except.ok doc1) }, [])
    | .failure msg =>
      let errorMsg := "SF PDP error subscribing to project: " ++ msg
      (s, { t with phase := GetDocPhase.done (Except.error errorMsg) },
       [ConnEffect.loggedError errorMsg])

/-- Interleaves a set of in-flight `getProjectDoc` calls: each schedule entry
names the task to advance and the subscription outcome to use if that step
settles its subscription. -/
def runGetDocTasks (s : ConnState) (ts : List GetDocTask) :
    List (Nat × SubscribeOutcome) → ConnState × List GetDocTask × List ConnEffect
  | [] => (s, ts, [])
  | (i, out) :: rest =>
    match ts[i]? with
    | none => runGetDocTasks s ts rest
    | some t =>
      let r := getProjectDocTaskStep s t out
      let r' := runGetDocTasks r.1 (ts.set i r.2.1) rest
      (r'.1, r'.2.1, r.2.2 ++ r'.2.2)

/-- Number of subscribe calls among a list of connection effects. -/
def countSubscribes (effs : List ConnEffect) : Nat :=
  (effs.filter fun e =>
    match e with
    | .subscribed _ _ => true
    | _ => false).length

/-- Number of opened transports among a list of connection effects. -/
def countOpenedSockets (effs : List ConnEffect) : Nat :=
  (effs.filter fun e =>
    match e with
    | .openedSocket _ => true
    | _ => false).length

/-- Repeated `connect` calls (no disconnect in between). -/
def runConnects (s : ConnState) : List (String × String) → ConnState × List ConnEffect
  | [] => (s, [])
  | (url, tok) :: rest =>
    let r := connect s url tok
    let r' := runConnects r.1 rest
    (r'.1, r.2 ++ r'.2)

/-! ## Throttled project directory cache
(`slingshot-project-data-provider-engine-factory.model.ts`) -/

/-- Throttle interval of the directory cache (5 seconds). -/
def GET_PROJECTS_THROTTLE_MS : Nat := 5000

/-- HTTP status `NO_CONTENT` from `http-status-codes`. -/
def NO_CONTENT : Nat := 204

/-- Modelled from the spec: the `NOT_LOGGED_IN_ERROR_MESSAGE` constant of the
Scripture Forge authentication provider.  Its defining module is not among
the provided sources (only its import site is); the claims settled here do
not depend on its exact text, only on whether a thrown error message equals
it. -/
def NOT_LOGGED_IN_ERROR_MESSAGE : String := "Not logged in"

/-- Mirrors `getSlingshotAppProjectId`. -/
def getSlingshotAppProjectId (projectId : String) : String :=
  projectId ++ "-slingshot-draft"

/-- The field of `ScriptureForgeProjectInfo` the directory cache reads. -/
structure ScriptureForgeProjectInfo where
  paratextId : String
deriving DecidableEq

/-- A project-metadata array as returned by `getAvailableProjects`.  `sid`
models the identity of the JavaScript array object: every array allocation
in the source corresponds to a fresh `sid`, so `sid` equality is reference
equality (the `!==` comparison of the source). -/
structure Snapshot where
  sid : Nat
  projectIds : List String
deriving DecidableEq

/-- Mutable state of a `SlingshotProjectDataProviderEngineFactory` (the
`pdpeByAppProjectId` map of live engine objects is not modelled; its entries
are only mutated in place and never read by the directory cache).
`nextSnapshotId` is the allocator for array identities. -/
structure FactoryState where
  projectInfoByAppProjectId : List (String × ScriptureForgeProjectInfo)
  lastGetProjectsTime : Nat
  lastAvailableProjects : Snapshot
  isLoggedOut : Bool
  nextSnapshotId : Nat
deriving DecidableEq

/-- State of a freshly constructed factory. -/
def initialFactoryState : FactoryState := ⟨[], 0, ⟨0, []⟩, false, 1⟩

/-- Outcome of one awaited `scriptureForgeApi.getProjects()` call: a thrown
error, a non-OK numeric status, or a project list. -/
inductive ApiGetProjectsOutcome where
  | threw (msg : String)
  | status (code : Nat)
  | ok (infos : List ScriptureForgeProjectInfo)
deriving DecidableEq

/-- Observable effects of the directory cache. -/
inductive FactoryEffect where
  | remoteGetProjects
  | loggedWarning (msg : String)
deriving DecidableEq

/-- Suspension-point machine for one in-flight `#getAvailableProjects` call:
the synchronous entry runs up to `getProjectsMutex.runExclusive`, the task
then waits for the mutex, and the critical section suspends once more while
awaiting the remote `getProjects` call.  `captured` is the
`lastAvailableProjectsBeforeMutex` reference taken at entry. -/
inductive FactoryPhase where
  | entry
  | waitMutex (captured : Snapshot)
  | awaitApi
  | done (result : Snapshot)
deriving DecidableEq

/-- One in-flight `#getAvailableProjects(force)` call. -/
structure FactoryTask where
  force : Bool
  phase : FactoryPhase
deriving DecidableEq

/-- Interleaves a set of in-flight `#getAvailableProjects` calls.  Each
schedule entry names the task to advance, `Date.now()` at that step, and the
outcome of the remote call if that step settles it.  `holder` is the index
of the task currently holding `getProjectsMutex` (it is held exactly while a
task is at `awaitApi`; acquiring, rechecking and either returning or issuing
the remote call happens in one step because the code between those awaits is
synchronous).  A task that waits for a held mutex, or awaits a remote call
that has not settled, does not advance. -/
def runFactoryTasks (f : FactoryState) (ts : List FactoryTask) (holder : Option Nat) :
    List (Nat × Nat × ApiGetProjectsOutcome) →
      FactoryState × List FactoryTask × Option Nat × List FactoryEffect
  | [] => (f, ts, holder, [])
  | (i, now, outcome) :: rest =>
    match ts[i]? with
    | none => runFactoryTasks f ts holder rest
    | some t =>
      match t.phase with
      | .done _ => runFactoryTasks f ts holder rest
      | .entry =>
        let f1 := if t.force then { f with lastGetProjectsTime := 0 } else f
        if !t.force && f1.isLoggedOut then
          let result : Snapshot := ⟨f1.nextSnapshotId, []⟩
          let f2 := { f1 with nextSnapshotId := f1.nextSnapshotId + 1 }
          runFactoryTasks f2 (ts.set i { t with phase := FactoryPhase.done result }) holder rest
        else if now - f1.lastGetProjectsTime < GET_PROJECTS_THROTTLE_MS then
          runFactoryTasks f1
            (ts.set i { t with phase := FactoryPhase.done f1.lastAvailableProjects }) holder rest
        else
          runFactoryTasks f1
            (ts.set i { t with phase := FactoryPhase.waitMutex f1.lastAvailableProjects })
            holder rest
      | .waitMutex captured =>
        if holder.isSome then runFactoryTasks f ts holder rest
        else if !t.force && captured.sid != f.lastAvailableProjects.sid then
          runFactoryTasks f
            (ts.set i { t with phase := FactoryPhase.done f.lastAvailableProjects }) holder rest
        else
          let r := runFactoryTasks f (ts.set i { t with phase := FactoryPhase.awaitApi })
            (some i) rest
          (r.1, r.2.1, r.2.2.1, FactoryEffect.remoteGetProjects :: r.2.2.2)
      | .awaitApi =>
        if holder ≠ some i then runFactoryTasks f ts holder rest
        else
          match outcome with
          | .threw msg =>
            let warn := FactoryEffect.loggedWarning
              ("Slingshot PDPEF caught Scripture Forge API error while getting available projects. "
                ++ msg)
            let f1 := if msg = NOT_LOGGED_IN_ERROR_MESSAGE then { f with isLoggedOut := true } else f
            let result : Snapshot := ⟨f1.nextSnapshotId, []⟩
            let f2 := { f1 with nextSnapshotId := f1.nextSnapshotId + 1 }
            let r := runFactoryTasks f2 (ts.set i { t with phase := FactoryPhase.done result })
              none rest
            (r.1, r.2.1, r.2.2.1, warn :: r.2.2.2)
          | .status code =>
            let warns :=
              if code ≠ NO_CONTENT then
                [FactoryEffect.loggedWarning
                  ("Slingshot PDPEF received error while getting available projects: "
                    ++ toString code)]
              else []
            let result : Snapshot := ⟨f.nextSnapshotId, []⟩
            let f1 := { f with nextSnapshotId := f.nextSnapshotId + 1 }
            let r := runFactoryTasks f1 (ts.set i { t with phase := FactoryPhase.done result })
              none rest
            (r.1, r.2.1, r.2.2.1, warns ++ r.2.2.2)
          | .ok infos =>
            let newSnapshot : Snapshot :=
              ⟨f.nextSnapshotId, infos.map fun info => getSlingshotAppProjectId info.paratextId⟩
            let f1 := { f with
              lastGetProjectsTime := now,
              projectInfoByAppProjectId :=
                infos.foldl (fun m info =>
                  (getSlingshotAppProjectId info.paratextId, info) :: m)
                  f.projectInfoByAppProjectId,
              lastAvailableProjects := newSnapshot,
              nextSnapshotId := f.nextSnapshotId + 1 }
            runFactoryTasks f1 (ts.set i { t with phase := FactoryPhase.done newSnapshot })
              none rest

/-- Sequential (single-caller) run of `getAvailableProjects(force)`: one task
driven to completion.  Returns the final factory state, the returned
snapshot (`none` would mean the task did not finish, which cannot happen in
three steps), and the effects. -/
def getAvailableProjects (f : FactoryState) (force : Bool) (now : Nat)
    (outcome : ApiGetProjectsOutcome) :
    FactoryState × Option Snapshot × List FactoryEffect :=
  let r := runFactoryTasks f [⟨force, FactoryPhase.entry⟩] none
    [(0, now, outcome), (0, now, outcome), (0, now, outcome)]
  let result :=
    match r.2.1[0]? with
    | some t =>
      match t.phase with
      | FactoryPhase.done res => some res
      | _ => none
    | none => none
  (r.1, result, r.2.2.2)

/-- Number of remote `getProjects` calls among a list of factory effects. -/
def countRemoteCalls (effs : List FactoryEffect) : Nat :=
  (effs.filter fun e =>
    match e with
    | .remoteGetProjects => true
    | _ => false).length

/-! ## Lemmas about the connection manager -/

theorem connect_existing (s : ConnState) (url tok : String)
    (h : s.connectionAV.isSome = true) : connect s url tok = (s, []) := by
  simp [connect, h]

theorem connect_av_isSome (s : ConnState) (url tok : String) :
    (connect s url tok).1.connectionAV.isSome = true := by
  by_cases h : s.connectionAV.isSome = true
  · simp [connect, h]
  · simp only [Bool.not_eq_true] at h
    simp [connect, h]

theorem countOpenedSockets_append (a b : List ConnEffect) :
    countOpenedSockets (a ++ b) = countOpenedSockets a + countOpenedSockets b := by
  simp [countOpenedSockets, List.filter_append]

theorem runConnects_no_open_of_isSome (calls : List (String × String)) :
    ∀ (s : ConnState), s.connectionAV.isSome = true →
      countOpenedSockets (runConnects s calls).2 = 0 := by
  induction calls with
  | nil => intro s _; simp [runConnects, countOpenedSockets]
  | cons c rest ih =>
    intro s h
    simp only [runConnects, connect_existing s c.1 c.2 h]
    simpa [countOpenedSockets_append] using ih s h

theorem runConnects_open_le_one (calls : List (String × String)) (s : ConnState) :
    countOpenedSockets (runConnects s calls).2 ≤ 1 := by
  by_cases h : s.connectionAV.isSome = true
  · simp [runConnects_no_open_of_isSome calls s h]
  · simp only [Bool.not_eq_true] at h
    cases calls with
    | nil => simp [runConnects, countOpenedSockets]
    | cons c rest =>
      have hopen : (connect s c.1 c.2).1.connectionAV.isSome = true :=
        connect_av_isSome s c.1 c.2
      simp only [runConnects, countOpenedSockets_append]
      have hrest := runConnects_no_open_of_isSome rest (connect s c.1 c.2).1 hopen
      rw [hrest]
      simp [connect, h, countOpenedSockets]

/-- C4: `connect` is idempotent.  A second call while a connection attempt is
outstanding (or after it resolved) leaves the state untouched and awaits the
same `AsyncVariable` instead of opening a second transport; a first call
creates the single pending attempt and opens exactly one transport; and over
any sequence of `connect` calls at most one transport is ever opened. -/
theorem connect_idempotent (s : ConnState) (url tok : String)
    (calls : List (String × String)) (h : s.connectionAV.isSome = true) :
    connect s url tok = (s, []) ∧
    (∀ s0 : ConnState, s0.connectionAV = none →
      (connect s0 url tok).1.connectionAV = some ConnectionAV.pending ∧
      (connect s0 url tok).2 = [ConnEffect.openedSocket (url ++ "/?access_token=" ++ tok)]) ∧
    (∀ s0 : ConnState, countOpenedSockets (runConnects s0 calls).2 ≤ 1) := by
  refine ⟨connect_existing s url tok h, ?_, fun s0 => runConnects_open_le_one calls s0⟩
  intro s0 h0
  constructor <;> simp [connect, h0]

/-- Witness for `connect_idempotent`: after a first `connect` on the fresh
module state, a second call changes nothing. -/
theorem connect_idempotent_witness :
    connect (connect initialConnState "wss://sf.example.org" "tokenA").1 "wss://other.example" "tokenB" =
      ((connect initialConnState "wss://sf.example.org" "tokenA").1, []) :=
  (connect_idempotent (connect initialConnState "wss://sf.example.org" "tokenA").1
    "wss://other.example" "tokenB" [] (by decide)).1

/-- C10: while a `connect` result exists (pending or resolved), a second
`connect` call ignores its arguments entirely: the result does not depend on
the url or token passed, the socket and the pending connection value are
left unchanged, and the caller just awaits the original promise.  Changing
endpoint or credential therefore requires `disconnect` first. -/
theorem connect_second_call_ignores_arguments (s : ConnState) (u1 t1 u2 t2 : String)
    (h : s.connectionAV.isSome = true) :
    connect s u2 t2 = connect s u1 t1 ∧
    (connect s u2 t2).1 = s ∧
    (connect s u2 t2).1.socket = s.socket ∧
    (connect s u2 t2).1.connectionAV = s.connectionAV := by
  have h2 := connect_existing s u2 t2 h
  have h1 := connect_existing s u1 t1 h
  rw [h1, h2]
  exact ⟨rfl, rfl, rfl, rfl⟩

/-- Witness for `connect_second_call_ignores_arguments`: a reconnect attempt
with a different endpoint and credential is indistinguishable from one with
the original arguments. -/
theorem connect_second_call_ignores_arguments_witness :
    connect (connect initialConnState "wss://sf.example.org" "tokenA").1 "wss://evil.example" "tokenC" =
      connect (connect initialConnState "wss://sf.example.org" "tokenA").1 "wss://sf.example.org" "tokenA" :=
  (connect_second_call_ignores_arguments (connect initialConnState "wss://sf.example.org" "tokenA").1
    "wss://sf.example.org" "tokenA" "wss://evil.example" "tokenC" (by decide)).1

/-! ## The disconnect / chapter-cache scenario -/

/-- Book-number map used in the disconnect scenario (stands in for the
external `Canon.bookNumberToId` on the one book the scenario touches). -/
def demoBookNumberToId : Nat → String := fun n => if n = 1 then "GEN" else ""

/-- Project metadata used in the disconnect scenario: book 1 (GEN) with a
valid chapter 1. -/
def demoTexts : List TextInfo := [⟨1, [⟨1, true⟩]⟩]

/-- Connection-manager state after a first session that connected and cached
the chapter document of GEN 1 of project `p1`. -/
def staleChapterSession : ConnState :=
  (getChapterDoc
    (socketOnOpen (connect initialConnState "wss://sf.example.org" "tokenA").1).1
    demoBookNumberToId "p1" ⟨"GEN", 1⟩
    (SubscribeOutcome.success demoTexts) (SubscribeOutcome.success [])).1

/-- Connection-manager state after `disconnect()` followed by a fresh
`connect()` that opened (and resolved) a second transport. -/
def staleChapterReconnected : ConnState :=
  (socketOnOpen (connect (disconnect staleChapterSession).1 "wss://sf.example.org" "tokenB").1).1

/-- The `getChapterDoc` call of the second session for the same chapter. -/
def staleChapterSecondLookup : ConnState × List ConnEffect × Except String DocHandle :=
  getChapterDoc staleChapterReconnected demoBookNumberToId "p1" ⟨"GEN", 1⟩
    (SubscribeOutcome.success demoTexts) (SubscribeOutcome.success [])

/-- C3 (code-bug exhibit): `disconnect` clears `projectDocuments` but never
`chapterDeltas`, so after `disconnect()` + `connect()` the chapter document
cached in the prior session — a handle belonging to the closed connection 1
— is returned from the cache (no new subscription is issued), although the
live connection of the new session is connection 2. -/
theorem disconnect_leaves_stale_chapter_doc :
    staleChapterSecondLookup.2.2 =
      Except.ok ⟨SCRIPTURE_FORGE_CHAPTER_DOCUMENT, "p1:GEN:1:target", 1, []⟩ ∧
    staleChapterReconnected.connectionAV = some (ConnectionAV.resolved ⟨2⟩) ∧
    (disconnect staleChapterSession).1.projectDocuments = [] ∧
    (disconnect staleChapterSession).1.chapterDeltas =
      [("p1:GEN:1:target", ⟨SCRIPTURE_FORGE_CHAPTER_DOCUMENT, "p1:GEN:1:target", 1, []⟩)] ∧
    staleChapterSecondLookup.2.1 = [] := by
  decide

/-! ## Document fetches: caching, error propagation and concurrency -/

/-- Connection-manager state with an open, resolved connection and empty
document caches. -/
def connectedEmptyState : ConnState :=
  (socketOnOpen (connect initialConnState "wss://sf.example.org" "tokenA").1).1

/-- Two concurrent `getProjectDoc` calls for the same uncached key, run under
the interleaving in which both pass the cache check before either finishes:
both callers then issue their own subscribe+fetch pair. -/
def twoCallerRun : ConnState × List GetDocTask × List ConnEffect :=
  runGetDocTasks connectedEmptyState
    [⟨"p1", GetDocPhase.entry⟩, ⟨"p1", GetDocPhase.entry⟩]
    [(0, SubscribeOutcome.success []), (1, SubscribeOutcome.success []),
     (0, SubscribeOutcome.success []), (1, SubscribeOutcome.success []),
     (0, SubscribeOutcome.success []), (1, SubscribeOutcome.success [])]

/-- C2 counterexample: two concurrent callers of `getProjectDoc` for the same
uncached key issue two subscriptions (and two fetches), not one — there is
no per-key single-flight guard, only a per-call async variable.  Both
callers do complete successfully. -/
theorem getProjectDoc_concurrent_double_subscribe :
    countSubscribes twoCallerRun.2.2 = 2 ∧
    twoCallerRun.2.2.count (ConnEffect.fetched SCRIPTURE_FORGE_PROJECTS_DOCUMENT "p1") = 2 ∧
    twoCallerRun.2.1 =
      [⟨"p1", GetDocPhase.done (Except.ok ⟨SCRIPTURE_FORGE_PROJECTS_DOCUMENT, "p1", 1, []⟩)⟩,
       ⟨"p1", GetDocPhase.done (Except.ok ⟨SCRIPTURE_FORGE_PROJECTS_DOCUMENT, "p1", 1, []⟩)⟩] ∧
    ¬ countSubscribes twoCallerRun.2.2 = 1 := by
  decide

/-- C2 (amended): `getProjectDoc` returns the cached handle when present
with no further effects; an uncached sequential call issues exactly one
fetch+subscribe pair and caches the handle on success; a subscription
failure propagates the error to the caller and caches nothing, so a later
call retries; but M concurrent callers for the same uncached key are not
deduplicated — each issues its own fetch+subscribe pair (two pairs for two
callers). -/
theorem getProjectDoc_cache_semantics
    (s1 : ConnState) (pid1 : String) (doc1 : DocHandle) (out1 : SubscribeOutcome)
    (s2 : ConnState) (pid2 : String) (conn : SfConnection) (texts : List TextInfo) (msg : String)
    (h1 : s1.projectDocuments.lookup pid1 = some doc1)
    (h2 : s2.projectDocuments.lookup pid2 = none)
    (h3 : s2.connectionAV = some (ConnectionAV.resolved conn)) :
    getProjectDoc s1 pid1 out1 = (s1, [], Except.ok doc1) ∧
    getProjectDoc s2 pid2 (SubscribeOutcome.success texts) =
      ({ s2 with projectDocuments :=
          (pid2, ⟨SCRIPTURE_FORGE_PROJECTS_DOCUMENT, pid2, conn.connId, texts⟩)
            :: s2.projectDocuments },
       [ConnEffect.subscribed SCRIPTURE_FORGE_PROJECTS_DOCUMENT pid2,
        ConnEffect.fetched SCRIPTURE_FORGE_PROJECTS_DOCUMENT pid2],
       Except.ok ⟨SCRIPTURE_FORGE_PROJECTS_DOCUMENT, pid2, conn.connId, texts⟩) ∧
    getProjectDoc s2 pid2 (SubscribeOutcome.failure msg) =
      (s2,
       [ConnEffect.subscribed SCRIPTURE_FORGE_PROJECTS_DOCUMENT pid2,
        ConnEffect.fetched SCRIPTURE_FORGE_PROJECTS_DOCUMENT pid2,
        ConnEffect.loggedError ("SF PDP error subscribing to project: " ++ msg)],
       Except.error ("SF PDP error subscribing to project: " ++ msg)) ∧
    countSubscribes (runGetDocTasks s2
      [⟨pid2, GetDocPhase.entry⟩, ⟨pid2, GetDocPhase.entry⟩]
      [(0, SubscribeOutcome.success texts), (1, SubscribeOutcome.success texts),
       (0, SubscribeOutcome.success texts), (1, SubscribeOutcome.success texts)]).2.2 = 2 := by
  refine ⟨?_, ?_, ?_, ?_⟩
  · simp [getProjectDoc, h1]
  · simp [getProjectDoc, h2, h3]
  · simp [getProjectDoc, h2, h3]
  · simp [runGetDocTasks, getProjectDocTaskStep, h2, h3, countSubscribes]

/-- Witness for `getProjectDoc_cache_semantics` at concrete states: `s1` has
the handle of `p1` cached, `s2` is freshly connected with an empty cache. -/
theorem getProjectDoc_cache_semantics_witness :
    getProjectDoc
      ({ connectedEmptyState with projectDocuments :=
          [("p1", ⟨SCRIPTURE_FORGE_PROJECTS_DOCUMENT, "p1", 1, []⟩)] })
      "p1" (SubscribeOutcome.success []) =
      ({ connectedEmptyState with projectDocuments :=
          [("p1", ⟨SCRIPTURE_FORGE_PROJECTS_DOCUMENT, "p1", 1, []⟩)] },
       [], Except.ok ⟨SCRIPTURE_FORGE_PROJECTS_DOCUMENT, "p1", 1, []⟩) ∧
    countSubscribes (runGetDocTasks connectedEmptyState
      [⟨"p2", GetDocPhase.entry⟩, ⟨"p2", GetDocPhase.entry⟩]
      [(0, SubscribeOutcome.success []), (1, SubscribeOutcome.success []),
       (0, SubscribeOutcome.success []), (1, SubscribeOutcome.success [])]).2.2 = 2 := by
  refine ⟨?_, ?_⟩
  · exact (getProjectDoc_cache_semantics
      ({ connectedEmptyState with projectDocuments :=
          [("p1", ⟨SCRIPTURE_FORGE_PROJECTS_DOCUMENT, "p1", 1, []⟩)] })
      "p1" ⟨SCRIPTURE_FORGE_PROJECTS_DOCUMENT, "p1", 1, []⟩ (SubscribeOutcome.success [])
      connectedEmptyState "p2" ⟨1⟩ [] "unused"
      (by decide) (by decide) (by decide)).1
  · exact (getProjectDoc_cache_semantics
      ({ connectedEmptyState with projectDocuments :=
          [("p1", ⟨SCRIPTURE_FORGE_PROJECTS_DOCUMENT, "p1", 1, []⟩)] })
      "p1" ⟨SCRIPTURE_FORGE_PROJECTS_DOCUMENT, "p1", 1, []⟩ (SubscribeOutcome.success [])
      connectedEmptyState "p2" ⟨1⟩ [] "unused"
      (by decide) (by decide) (by decide)).2.2.2

/-! ## Directory cache: failure handling -/

/-- Factory state after one successful directory refresh at `t = 10000`
returning one project. -/
def factoryAfterSuccess : FactoryState :=
  (getAvailableProjects initialFactoryState false 10000
    (ApiGetProjectsOutcome.ok [⟨"p1"⟩])).1

/-- A later, unforced call outside the throttle window whose remote fetch
throws. -/
def factoryFailureCall : FactoryState × Option Snapshot × List FactoryEffect :=
  getAvailableProjects factoryAfterSuccess false 20000
    (ApiGetProjectsOutcome.threw "network error")

/-- C6 counterexample: when the remote fetch fails, the call returns a fresh
empty project list, not the last-known snapshot (which still holds one
project and is left in place). -/
theorem getAvailableProjects_failure_not_last_snapshot :
    factoryFailureCall.2.1 = some ⟨2, []⟩ ∧
    factoryAfterSuccess.lastAvailableProjects = ⟨1, ["p1-slingshot-draft"]⟩ ∧
    factoryFailureCall.1.lastAvailableProjects = ⟨1, ["p1-slingshot-draft"]⟩ ∧
    ¬ factoryFailureCall.2.1 = some factoryAfterSuccess.lastAvailableProjects := by
  decide

/-- C6 (amended): when the remote directory fetch fails — by throwing or by
returning an error status other than NO_CONTENT — `getAvailableProjects`
does not throw: it logs a warning and returns a fresh empty list, leaving
the stored last-known snapshot (and its timestamp) unchanged, so the
failure is not propagated to callers. -/
theorem getAvailableProjects_failure_degrades
    (f : FactoryState) (now : Nat) (msg : String) (code : Nat)
    (hlo : f.isLoggedOut = false)
    (hstale : GET_PROJECTS_THROTTLE_MS ≤ now - f.lastGetProjectsTime)
    (hcode : code ≠ NO_CONTENT) :
    (getAvailableProjects f false now (ApiGetProjectsOutcome.threw msg)).2.1 =
      some ⟨f.nextSnapshotId, []⟩ ∧
    (getAvailableProjects f false now (ApiGetProjectsOutcome.threw msg)).1.lastAvailableProjects =
      f.lastAvailableProjects ∧
    (getAvailableProjects f false now (ApiGetProjectsOutcome.threw msg)).1.lastGetProjectsTime =
      f.lastGetProjectsTime ∧
    (getAvailableProjects f false now (ApiGetProjectsOutcome.threw msg)).2.2 =
      [FactoryEffect.remoteGetProjects,
       FactoryEffect.loggedWarning
        ("Slingshot PDPEF caught Scripture Forge API error while getting available projects. "
          ++ msg)] ∧
    (getAvailableProjects f false now (ApiGetProjectsOutcome.status code)).2.1 =
      some ⟨f.nextSnapshotId, []⟩ ∧
    (getAvailableProjects f false now (ApiGetProjectsOutcome.status code)).1.lastAvailableProjects =
      f.lastAvailableProjects ∧
    (getAvailableProjects f false now (ApiGetProjectsOutcome.status code)).2.2 =
      [FactoryEffect.remoteGetProjects,
       FactoryEffect.loggedWarning
        ("Slingshot PDPEF received error while getting available projects: " ++ toString code)] := by
  have hthrottle : ¬ now - f.lastGetProjectsTime < GET_PROJECTS_THROTTLE_MS := by omega
  by_cases hmsg : msg = NOT_LOGGED_IN_ERROR_MESSAGE <;>
    simp [getAvailableProjects, runFactoryTasks, hlo, hthrottle, hmsg, hcode]

/-- Witness for `getAvailableProjects_failure_degrades` on the concrete
post-success state. -/
theorem getAvailableProjects_failure_degrades_witness :
    (getAvailableProjects factoryAfterSuccess false 20000
      (ApiGetProjectsOutcome.threw "network error")).2.1 =
        some ⟨factoryAfterSuccess.nextSnapshotId, []⟩ ∧
    (getAvailableProjects factoryAfterSuccess false 20000
      (ApiGetProjectsOutcome.threw "network error")).1.lastAvailableProjects =
        factoryAfterSuccess.lastAvailableProjects :=
  ⟨(getAvailableProjects_failure_degrades factoryAfterSuccess 20000 "network error" 500
      (by decide) (by decide) (by decide)).1,
   (getAvailableProjects_failure_degrades factoryAfterSuccess 20000 "network error" 500
      (by decide) (by decide) (by decide)).2.1⟩

/-! ## Worker: duplicate initialize and exit codes -/

/-- C7: a worker that has already processed an `initialize` (its config or
RPC client is set) answers a second `initialize` with exactly one `error`
message reading `Already initialized`; only its message-id counter advances
— the stored configuration, auth token and connections are untouched, no
backend connection is opened, and the process does not terminate. -/
theorem second_initialize_single_error (s : WorkerState) (env : WorkerEnv)
    (mid mnow : Nat) (tok http wss : String) (port : Nat)
    (hexit : s.exitCode = none)
    (hforked : s.isForked = true)
    (hinit : s.config.papiPort.isSome = true ∨ s.rpcClient = true) :
    workerStep s (WorkerInput.ipc (createInitializeMessage mid mnow tok http wss port)) env =
      ({ s with nextMsgId := s.nextMsgId + 1 },
       [WorkerEffect.warnedAlreadyInitialized,
        WorkerEffect.sent (createErrorMessage s.nextMsgId env.now "Already initialized" none)]) ∧
    sentMessages
      (workerStep s (WorkerInput.ipc (createInitializeMessage mid mnow tok http wss port)) env).2 =
      [createErrorMessage s.nextMsgId env.now "Already initialized" none] ∧
    (workerStep s (WorkerInput.ipc (createInitializeMessage mid mnow tok http wss port)) env).1.config
      = s.config ∧
    (workerStep s
      (WorkerInput.ipc (createInitializeMessage mid mnow tok http wss port)) env).1.exitCode
      = none ∧
    (∀ u t, WorkerEffect.openedBackendConnection u t ∉
      (workerStep s (WorkerInput.ipc (createInitializeMessage mid mnow tok http wss port)) env).2) ∧
    (∀ c r, WorkerEffect.exited c r ∉
      (workerStep s (WorkerInput.ipc (createInitializeMessage mid mnow tok http wss port)) env).2) := by
  have hguard : (s.config.papiPort.isSome || s.rpcClient) = true := by
    rcases hinit with h | h <;> simp [h]
  have hstep : workerStep s
      (WorkerInput.ipc (createInitializeMessage mid mnow tok http wss port)) env =
      ({ s with nextMsgId := s.nextMsgId + 1 },
       [WorkerEffect.warnedAlreadyInitialized,
        WorkerEffect.sent (createErrorMessage s.nextMsgId env.now "Already initialized" none)]) := by
    simp [workerStep, hexit, handleMessage, createInitializeMessage, handleInitializeMessage,
      hguard, sendMessage, createErrorMessage, SfMsgBody.isHandshakeSendable, hforked,
      Bind.bind, Except.bind]
  rw [hstep]
  refine ⟨?_, by simp [sentMessages], rfl, by simpa using hexit, ?_, ?_⟩
  · simp [hforked, hexit]
  · intros u t; simp
  · intros c r; simp

theorem sendMessage_ok_shape (s : WorkerState) (m : SfPdpIpcMessage) (effs : List WorkerEffect)
    (h : sendMessage s m = Except.ok effs) :
    effs = [WorkerEffect.droppedBeforeHandshake m] ∨ effs = [WorkerEffect.sent m] := by
  unfold sendMessage at h
  split at h
  · simp only [Except.ok.injEq] at h
    exact Or.inl h.symm
  · split at h
    · exact absurd h (by simp)
    · simp only [Except.ok.injEq] at h
      exact Or.inr h.symm

theorem runInitializeSteps_no_exit_zero (s : WorkerState) (env : WorkerEnv) (r : String) :
    WorkerEffect.exited 0 r ∉ (runInitializeSteps s env).2 := by
  unfold runInitializeSteps exitProcess
  rcases hp : s.config.papiPort with _ | port
  · simp [hp]
  · rcases port with _ | p
    · simp [hp]
    · by_cases hpc : env.papiConnectOk
      · rcases hw : s.config.wssBaseUrl with _ | wss
        · simp [hp, hpc, hw]
        · rcases ht : s.currentAuthToken with _ | tok
          · simp [hp, hpc, hw, ht]
          · by_cases hwss : wss = ""
            · simp [hp, hpc, hw, ht, hwss]
            · by_cases htok : tok = ""
              · simp [hp, hpc, hw, ht, hwss, htok]
              · by_cases hbc : env.backendConnectOk
                · by_cases hreg : env.registerOk <;>
                    simp [hp, hpc, hw, ht, hwss, htok, hbc, hreg]
                · simp [hp, hpc, hw, ht, hwss, htok, hbc]
      · simp [hp, hpc]

theorem handleMessage_exit_zero (s : WorkerState) (env : WorkerEnv) (m : SfPdpIpcMessage)
    (res : WorkerState × List WorkerEffect) (r : String)
    (h : handleMessage s env m = Except.ok res)
    (h0 : WorkerEffect.exited 0 r ∈ res.2) : m.body.typeTag = "shutdown" := by
  unfold handleMessage at h
  cases hb : m.body with
  | initializeMsg a b c d =>
    exfalso
    rw [hb] at h
    dsimp only at h
    unfold handleInitializeMessage at h
    split at h
    on_goal 1 => dsimp only at h
    · rcases hsm : sendMessage { s with nextMsgId := s.nextMsgId + 1 }
        (createErrorMessage s.nextMsgId env.now "Already initialized" none) with e | effs
      · rw [hsm] at h
        simp [Bind.bind, Except.bind] at h
      · rw [hsm] at h
        simp only [Bind.bind, Except.bind, Except.ok.injEq] at h
        rcases sendMessage_ok_shape _ _ _ hsm with he | he <;>
          (subst he; rw [← h] at h0; simp at h0)
    · simp only [Except.ok.injEq] at h
      rw [← h] at h0
      simp only [List.mem_cons] at h0
      rcases h0 with h0 | h0
      · exact absurd h0 (by simp)
      · exact runInitializeSteps_no_exit_zero _ env r h0
  | ping u =>
    exfalso
    rw [hb] at h
    dsimp only at h
    unfold handlePing at h
    dsimp only at h
    rcases hsm : sendMessage { s with receivedPing := true } (createPongMessage m.id env.now)
      with e | effs
    · rw [hsm] at h
      simp [Bind.bind, Except.bind] at h
    · rw [hsm] at h
      simp only [Bind.bind, Except.bind, Except.ok.injEq] at h
      rcases sendMessage_ok_shape _ _ _ hsm with he | he <;>
        (subst he; rw [← h] at h0; simp at h0)
  | pong =>
    exfalso
    rw [hb] at h
    dsimp only at h
    unfold handlePong at h
    simp only [Except.ok.injEq] at h
    rw [← h] at h0
    simp at h0
  | projectResults ids =>
    exfalso
    rw [hb] at h
    dsimp only at h
    unfold handleProjectResults at h
    split at h <;> (simp only [Except.ok.injEq] at h; rw [← h] at h0; simp at h0)
  | shutdown reason => rfl
  | getProjects =>
    exfalso
    rw [hb] at h
    dsimp only at h
    simp only [Except.ok.injEq] at h
    rw [← h] at h0
    simp at h0
  | error e st =>
    exfalso
    rw [hb] at h
    dsimp only at h
    simp only [Except.ok.injEq] at h
    rw [← h] at h0
    simp at h0
  | authToken =>
    exfalso
    rw [hb] at h
    dsimp only at h
    simp only [Except.ok.injEq] at h
    rw [← h] at h0
    simp at h0

/-- C8: the worker exits with code 0 exactly on a `shutdown` message or a
termination signal; each fatal path has its own reserved non-zero code —
100 when not attached to a parent IPC channel, 101 for an uncaught
message-handling error, 102 for a control-plane (PAPI) connection failure,
103 for a backend connection failure, 104 for a capability-registration
failure — and an unreachable backend during `initialize` yields 103, not
the control-plane code 102. -/
theorem worker_exit_codes (s : WorkerState) (env : WorkerEnv)
    (mid mnow port : Nat) (reason tok http wss : String)
    (hexit : s.exitCode = none)
    (hport : port ≠ 0)
    (hwss : wss ≠ "")
    (htok : tok ≠ "")
    (huninitPort : s.config.papiPort = none)
    (huninitRpc : s.rpcClient = false) :
    exitedCodes (workerStep s
      (WorkerInput.ipc (createShutdownMessage mid mnow (some reason))) env).2 = [0] ∧
    exitedCodes (workerStep s WorkerInput.sigint env).2 = [0] ∧
    exitedCodes (workerStep s WorkerInput.sigterm env).2 = [0] ∧
    exitedCodes (workerStart { s with isForked := false } env).2 = [100] ∧
    exitedCodes (workerStep { s with isForked := false }
      (WorkerInput.ipc (createPingMessage mid mnow 0)) env).2 = [101] ∧
    exitedCodes (workerStep s
      (WorkerInput.ipc (createInitializeMessage mid mnow tok http wss port))
      { env with papiConnectOk := false }).2 = [102] ∧
    exitedCodes (workerStep s
      (WorkerInput.ipc (createInitializeMessage mid mnow tok http wss port))
      { env with papiConnectOk := true, backendConnectOk := false }).2 = [103] ∧
    exitedCodes (workerStep s
      (WorkerInput.ipc (createInitializeMessage mid mnow tok http wss port))
      { env with papiConnectOk := true, backendConnectOk := true, registerOk := false }).2
      = [104] ∧
    (∀ (inp : WorkerInput) (env2 : WorkerEnv) (r : String),
      WorkerEffect.exited 0 r ∈ (workerStep s inp env2).2 →
        inp = WorkerInput.sigint ∨ inp = WorkerInput.sigterm ∨
          ∃ m, inp = WorkerInput.ipc m ∧ m.body.typeTag = "shutdown") ∧
    ((103 : Nat) ≠ 102 ∧ List.Pairwise (fun a b => a ≠ b) [100, 101, 102, 103, 104] ∧
      (0 : Nat) ∉ [100, 101, 102, 103, 104]) := by
  have hguard : (s.config.papiPort.isSome || s.rpcClient) = false := by
    simp [huninitPort, huninitRpc]
  refine ⟨?_, ?_, ?_, ?_, ?_, ?_, ?_, ?_, ?_, by norm_num⟩
  · simp [workerStep, hexit, handleMessage, createShutdownMessage, handleShutdown,
      exitProcess, exitedCodes]
  · simp [workerStep, hexit, exitProcess, exitedCodes]
  · simp [workerStep, hexit, exitProcess, exitedCodes]
  · simp [workerStart, exitProcess, exitedCodes]
  · simp [workerStep, hexit, handleMessage, createPingMessage, createPongMessage, handlePing,
      sendMessage, SfMsgBody.isHandshakeSendable, Bind.bind, Except.bind, exitProcess,
      exitedCodes]
  · simp [workerStep, hexit, handleMessage, createInitializeMessage, handleInitializeMessage,
      hguard, huninitPort, huninitRpc, runInitializeSteps, exitProcess, exitedCodes, hport,
      Bind.bind, Except.bind]
  · rcases Nat.exists_eq_succ_of_ne_zero hport with ⟨p, hp⟩
    subst hp
    simp [workerStep, hexit, handleMessage, createInitializeMessage, handleInitializeMessage,
      hguard, huninitPort, huninitRpc, runInitializeSteps, exitProcess, exitedCodes, hwss, htok,
      Bind.bind, Except.bind]
  · rcases Nat.exists_eq_succ_of_ne_zero hport with ⟨p, hp⟩
    subst hp
    simp [workerStep, hexit, handleMessage, createInitializeMessage, handleInitializeMessage,
      hguard, huninitPort, huninitRpc, runInitializeSteps, exitProcess, exitedCodes, hwss, htok,
      Bind.bind, Except.bind]
  · intro inp env2 r hmem
    have hex : s.exitCode.isSome = false := by simp [hexit]
    cases inp with
    | ipc m =>
      rcases hh : handleMessage s env2 m with e | res2
      · exfalso
        simp only [workerStep, hex, Bool.false_eq_true, if_false, hh, exitProcess] at hmem
        simp at hmem
      · refine Or.inr (Or.inr ⟨m, rfl, ?_⟩)
        apply handleMessage_exit_zero s env2 m res2 r hh
        simpa only [workerStep, hex, Bool.false_eq_true, if_false, hh] using hmem
    | callGetProjects =>
      exfalso
      rcases hg : workerGetProjects s env2 with e | res2
      · simp only [workerStep, hex, Bool.false_eq_true, if_false, hg] at hmem
        simp at hmem
      · simp only [workerStep, hex, Bool.false_eq_true, if_false, hg] at hmem
        unfold workerGetProjects at hg
        split at hg
        · simp only [Except.ok.injEq] at hg
          rw [← hg] at hmem
          simp at hmem
        · dsimp only at hg
          rcases hsm : sendMessage
            { s with pendingProjectResults := true, nextMsgId := s.nextMsgId + 1 }
            (createGetProjectsMessage s.nextMsgId env2.now) with e2 | effs
          · rw [hsm] at hg
            simp [Bind.bind, Except.bind] at hg
          · rw [hsm] at hg
            simp only [Bind.bind, Except.bind, Except.ok.injEq] at hg
            rcases sendMessage_ok_shape _ _ _ hsm with he | he <;>
              (subst he; rw [← hg] at hmem; simp at hmem)
    | sigint => exact Or.inl rfl
    | sigterm => exact Or.inr (Or.inl rfl)

/-- Witness for `worker_exit_codes` on a concrete fresh worker state. -/
theorem worker_exit_codes_witness :
    exitedCodes (workerStep (initialWorkerState true)
      (WorkerInput.ipc (createShutdownMessage 3 500 (some "done"))) ⟨500, 1, true, true, true⟩).2
      = [0] ∧
    exitedCodes (workerStep (initialWorkerState true)
      (WorkerInput.ipc (createInitializeMessage 4 600 "tok" "https://sf" "wss://sf" 8876))
      ⟨600, 1, true, false, true⟩).2 = [103] :=
  ⟨(worker_exit_codes (initialWorkerState true) ⟨500, 1, true, true, true⟩ 3 500 8876
      "done" "tok" "https://sf" "wss://sf"
      rfl (by decide) (by decide) (by decide) rfl rfl).1,
   by
    have h := (worker_exit_codes (initialWorkerState true) ⟨600, 1, true, false, true⟩ 4 600 8876
      "done" "tok" "https://sf" "wss://sf"
      rfl (by decide) (by decide) (by decide) rfl rfl).2.2.2.2.2.2.1
    simpa using h⟩

/-! ## The handshake gate on outgoing worker traffic -/

/-- Recognizes a `ping` arriving over IPC. -/
def isIpcPing : WorkerInput → Bool
  | .ipc m =>
    match m.body with
    | .ping _ => true
    | _ => false
  | _ => false

/-- Recognizes a `pong` arriving over IPC. -/
def isIpcPong : WorkerInput → Bool
  | .ipc m =>
    match m.body with
    | .pong => true
    | _ => false
  | _ => false

/-- Message types the worker may emit before the handshake completes. -/
def handshakeSendableTag (m : SfPdpIpcMessage) : Prop :=
  m.body.typeTag = "error" ∨ m.body.typeTag = "ping" ∨ m.body.typeTag = "pong"

theorem sendable_tag_of_isHandshakeSendable (m : SfPdpIpcMessage)
    (h : m.body.isHandshakeSendable = true) : handshakeSendableTag m := by
  cases hb : m.body <;> rw [hb] at h <;> simp [SfMsgBody.isHandshakeSendable] at h <;>
    simp [handshakeSendableTag, hb, SfMsgBody.typeTag]

theorem sentMessages_append (a b : List WorkerEffect) :
    sentMessages (a ++ b) = sentMessages a ++ sentMessages b := by
  simp [sentMessages]
theorem mem_sentMessages (m : SfPdpIpcMessage) (effs : List WorkerEffect) :
    m ∈ sentMessages effs ↔ WorkerEffect.sent m ∈ effs := by
  simp only [sentMessages, List.mem_filterMap]
  constructor
  · rintro ⟨e, he, hfe⟩
    cases e <;> simp only [Option.some.injEq, reduceCtorEq] at hfe
    rw [hfe] at he
    exact he
  · intro hmem
    exact ⟨WorkerEffect.sent m, hmem, rfl⟩

theorem runInitializeSteps_no_sent (s : WorkerState) (env : WorkerEnv) (m : SfPdpIpcMessage) :
    WorkerEffect.sent m ∉ (runInitializeSteps s env).2 := by
  unfold runInitializeSteps exitProcess
  rcases hp : s.config.papiPort with _ | port
  · simp [hp]
  · rcases port with _ | p
    · simp [hp]
    · by_cases hpc : env.papiConnectOk
      · rcases hw : s.config.wssBaseUrl with _ | wss
        · simp [hp, hpc, hw]
        · rcases ht : s.currentAuthToken with _ | tok
          · simp [hp, hpc, hw, ht]
          · by_cases hwss : wss = ""
            · simp [hp, hpc, hw, ht, hwss]
            · by_cases htok : tok = ""
              · simp [hp, hpc, hw, ht, hwss, htok]
              · by_cases hbc : env.backendConnectOk
                · by_cases hreg : env.registerOk <;>
                    simp [hp, hpc, hw, ht, hwss, htok, hbc, hreg]
                · simp [hp, hpc, hw, ht, hwss, htok, hbc]
      · simp [hp, hpc]

/-- Before the bidirectional handshake has completed, a step of the worker
can only put `error`, `ping` or `pong` messages on the IPC channel. -/
theorem workerStep_sent_guard (s : WorkerState) (inp : WorkerInput) (env : WorkerEnv)
    (h : s.receivedPing = false ∨ s.receivedPong = false) :
    ∀ m ∈ sentMessages (workerStep s inp env).2, handshakeSendableTag m := by
  intro m hm
  rw [mem_sentMessages] at hm
  by_cases hex : s.exitCode.isSome = true
  · simp [workerStep, hex] at hm
  · simp only [Bool.not_eq_true] at hex
    cases inp with
    | sigint => simp [workerStep, hex, exitProcess] at hm
    | sigterm => simp [workerStep, hex, exitProcess] at hm
    | callGetProjects =>
      exfalso
      have hguard : (!s.receivedPing || !s.receivedPong) = true := by
        rcases h with h | h <;> simp [h]
      rcases hg : workerGetProjects s env with e | res2
      · simp [workerStep, hex, hg, exitProcess] at hm
      · simp only [workerStep, hex, Bool.false_eq_true, if_false, hg] at hm
        unfold workerGetProjects at hg
        split at hg
        · simp only [Except.ok.injEq] at hg
          rw [← hg] at hm
          simp at hm
        · dsimp only at hg
          rw [show sendMessage
              { s with pendingProjectResults := true, nextMsgId := s.nextMsgId + 1 }
              (createGetProjectsMessage s.nextMsgId env.now) =
              Except.ok [WorkerEffect.droppedBeforeHandshake
                (createGetProjectsMessage s.nextMsgId env.now)] from by
            simp [sendMessage, hguard, createGetProjectsMessage,
              SfMsgBody.isHandshakeSendable]] at hg
          simp only [Bind.bind, Except.bind, Except.ok.injEq] at hg
          rw [← hg] at hm
          simp at hm
    | ipc mi =>
      rcases hh : handleMessage s env mi with e | res2
      · simp [workerStep, hex, hh, exitProcess] at hm
      · simp only [workerStep, hex, Bool.false_eq_true, if_false, hh] at hm
        unfold handleMessage at hh
        cases hb : mi.body with
        | initializeMsg a b c d =>
          rw [hb] at hh
          dsimp only at hh
          unfold handleInitializeMessage at hh
          split at hh
          · dsimp only at hh
            rcases hsm : sendMessage { s with nextMsgId := s.nextMsgId + 1 }
              (createErrorMessage s.nextMsgId env.now "Already initialized" none) with e2 | effs
            · rw [hsm] at hh
              simp [Bind.bind, Except.bind] at hh
            · rw [hsm] at hh
              simp only [Bind.bind, Except.bind, Except.ok.injEq] at hh
              rw [← hh] at hm
              rcases sendMessage_ok_shape _ _ _ hsm with he | he <;> subst he <;> simp at hm
              rw [hm]
              simp [handshakeSendableTag, createErrorMessage, SfMsgBody.typeTag]
          · simp only [Except.ok.injEq] at hh
            rw [← hh] at hm
            simp only [List.mem_cons, reduceCtorEq, false_or] at hm
            exact absurd hm (runInitializeSteps_no_sent _ env m)
        | ping u =>
          rw [hb] at hh
          dsimp only at hh
          unfold handlePing at hh
          dsimp only at hh
          rcases hsm : sendMessage { s with receivedPing := true }
            (createPongMessage mi.id env.now) with e2 | effs
          · rw [hsm] at hh
            simp [Bind.bind, Except.bind] at hh
          · rw [hsm] at hh
            simp only [Bind.bind, Except.bind, Except.ok.injEq] at hh
            rw [← hh] at hm
            rcases sendMessage_ok_shape _ _ _ hsm with he | he <;> subst he <;> simp at hm
            rw [hm]
            simp [handshakeSendableTag, createPongMessage, SfMsgBody.typeTag]
        | pong =>
          rw [hb] at hh
          dsimp only at hh
          unfold handlePong at hh
          simp only [Except.ok.injEq] at hh
          rw [← hh] at hm
          simp at hm
        | projectResults ids =>
          rw [hb] at hh
          dsimp only at hh
          unfold handleProjectResults at hh
          split at hh
          all_goals simp only [Except.ok.injEq] at hh
          all_goals rw [← hh] at hm
          all_goals simp at hm
        | shutdown reason =>
          rw [hb] at hh
          dsimp only at hh
          unfold handleShutdown at hh
          simp only [Except.ok.injEq] at hh
          rw [← hh] at hm
          simp [exitProcess] at hm
        | getProjects =>
          rw [hb] at hh
          dsimp only at hh
          simp only [Except.ok.injEq] at hh
          rw [← hh] at hm
          simp at hm
        | error e2 st =>
          rw [hb] at hh
          dsimp only at hh
          simp only [Except.ok.injEq] at hh
          rw [← hh] at hm
          simp at hm
        | authToken =>
          rw [hb] at hh
          dsimp only at hh
          simp only [Except.ok.injEq] at hh
          rw [← hh] at hm
          simp at hm

theorem runInitializeSteps_preserves_flags (s : WorkerState) (env : WorkerEnv) :
    (runInitializeSteps s env).1.receivedPing = s.receivedPing ∧
    (runInitializeSteps s env).1.receivedPong = s.receivedPong := by
  unfold runInitializeSteps exitProcess
  rcases hp : s.config.papiPort with _ | port
  · simp [hp]
  · rcases port with _ | p
    · simp [hp]
    · by_cases hpc : env.papiConnectOk
      · rcases hw : s.config.wssBaseUrl with _ | wss
        · simp [hp, hpc, hw]
        · rcases ht : s.currentAuthToken with _ | tok
          · simp [hp, hpc, hw, ht]
          · by_cases hwss : wss = ""
            · simp [hp, hpc, hw, ht, hwss]
            · by_cases htok : tok = ""
              · simp [hp, hpc, hw, ht, hwss, htok]
              · by_cases hbc : env.backendConnectOk
                · by_cases hreg : env.registerOk <;>
                    simp [hp, hpc, hw, ht, hwss, htok, hbc, hreg]
                · simp [hp, hpc, hw, ht, hwss, htok, hbc]
      · simp [hp, hpc]

theorem workerStep_preserves_flags (s : WorkerState) (inp : WorkerInput) (env : WorkerEnv) :
    (isIpcPing inp = false → (workerStep s inp env).1.receivedPing = s.receivedPing) ∧
    (isIpcPong inp = false → (workerStep s inp env).1.receivedPong = s.receivedPong) := by
  by_cases hex : s.exitCode.isSome = true
  · simp [workerStep, hex]
  · simp only [Bool.not_eq_true] at hex
    cases inp with
    | sigint => simp [workerStep, hex, exitProcess]
    | sigterm => simp [workerStep, hex, exitProcess]
    | callGetProjects =>
      rcases hg : workerGetProjects s env with e | res2
      · simp [workerStep, hex, hg, exitProcess]
      · simp only [workerStep, hex, Bool.false_eq_true, if_false, hg]
        unfold workerGetProjects at hg
        split at hg
        · simp only [Except.ok.injEq] at hg
          rw [← hg]
          simp [isIpcPing, isIpcPong]
        · dsimp only at hg
          rcases hsm : sendMessage
            { s with pendingProjectResults := true, nextMsgId := s.nextMsgId + 1 }
            (createGetProjectsMessage s.nextMsgId env.now) with e2 | effs
          · rw [hsm] at hg
            simp [Bind.bind, Except.bind] at hg
          · rw [hsm] at hg
            simp only [Bind.bind, Except.bind, Except.ok.injEq] at hg
            rw [← hg]
            simp [isIpcPing, isIpcPong]
    | ipc mi =>
      rcases hh : handleMessage s env mi with e | res2
      · simp [workerStep, hex, hh, exitProcess]
      · simp only [workerStep, hex, Bool.false_eq_true, if_false, hh]
        unfold handleMessage at hh
        cases hb : mi.body with
        | initializeMsg a b c d =>
          rw [hb] at hh
          dsimp only at hh
          unfold handleInitializeMessage at hh
          split at hh
          · dsimp only at hh
            rcases hsm : sendMessage { s with nextMsgId := s.nextMsgId + 1 }
              (createErrorMessage s.nextMsgId env.now "Already initialized" none) with e2 | effs
            · rw [hsm] at hh
              simp [Bind.bind, Except.bind] at hh
            · rw [hsm] at hh
              simp only [Bind.bind, Except.bind, Except.ok.injEq] at hh
              rw [← hh]
              simp [isIpcPing, isIpcPong, hb]
          · simp only [Except.ok.injEq] at hh
            rw [← hh]
            have hflags := runInitializeSteps_preserves_flags
              { s with currentAuthToken := some a,
                       config := ⟨some b, some c, some d⟩ } env
            simpa [isIpcPing, isIpcPong, hb] using hflags
        | ping u =>
          rw [hb] at hh
          dsimp only at hh
          unfold handlePing at hh
          dsimp only at hh
          rcases hsm : sendMessage { s with receivedPing := true }
            (createPongMessage mi.id env.now) with e2 | effs
          · rw [hsm] at hh
            simp [Bind.bind, Except.bind] at hh
          · rw [hsm] at hh
            simp only [Bind.bind, Except.bind, Except.ok.injEq] at hh
            rw [← hh]
            simp [isIpcPing, isIpcPong, hb]
        | pong =>
          rw [hb] at hh
          dsimp only at hh
          unfold handlePong at hh
          simp only [Except.ok.injEq] at hh
          rw [← hh]
          simp [isIpcPing, isIpcPong, hb]
        | projectResults ids =>
          rw [hb] at hh
          dsimp only at hh
          unfold handleProjectResults at hh
          split at hh
          all_goals simp only [Except.ok.injEq] at hh
          all_goals rw [← hh]
          all_goals simp [isIpcPing, isIpcPong, hb]
        | shutdown reason =>
          rw [hb] at hh
          dsimp only at hh
          unfold handleShutdown at hh
          simp only [Except.ok.injEq] at hh
          rw [← hh]
          simp [isIpcPing, isIpcPong, hb, exitProcess]
        | getProjects =>
          rw [hb] at hh
          dsimp only at hh
          simp only [Except.ok.injEq] at hh
          rw [← hh]
          simp [isIpcPing, isIpcPong, hb]
        | error e2 st =>
          rw [hb] at hh
          dsimp only at hh
          simp only [Except.ok.injEq] at hh
          rw [← hh]
          simp [isIpcPing, isIpcPong, hb]
        | authToken =>
          rw [hb] at hh
          dsimp only at hh
          simp only [Except.ok.injEq] at hh
          rw [← hh]
          simp [isIpcPing, isIpcPong, hb]

theorem workerRun_sent_guard_ping :
    ∀ (trace : List (WorkerInput × WorkerEnv)) (s : WorkerState),
      s.receivedPing = false → (∀ p ∈ trace, isIpcPing p.1 = false) →
      ∀ m ∈ sentMessages (workerRun s trace).2, handshakeSendableTag m := by
  intro trace
  induction trace with
  | nil => intro s _ _ m hm; simp [workerRun, sentMessages] at hm
  | cons p rest ih =>
    intro s hp htrace m hm
    simp only [workerRun, sentMessages_append, List.mem_append] at hm
    rcases hm with hm | hm
    · exact workerStep_sent_guard s p.1 p.2 (Or.inl hp) m hm
    · have hnp : isIpcPing p.1 = false := htrace p (by simp)
      have hflag : (workerStep s p.1 p.2).1.receivedPing = s.receivedPing :=
        (workerStep_preserves_flags s p.1 p.2).1 hnp
      exact ih (workerStep s p.1 p.2).1 (hflag.trans hp)
        (fun q hq => htrace q (by simp [hq])) m hm

theorem workerRun_sent_guard_pong :
    ∀ (trace : List (WorkerInput × WorkerEnv)) (s : WorkerState),
      s.receivedPong = false → (∀ p ∈ trace, isIpcPong p.1 = false) →
      ∀ m ∈ sentMessages (workerRun s trace).2, handshakeSendableTag m := by
  intro trace
  induction trace with
  | nil => intro s _ _ m hm; simp [workerRun, sentMessages] at hm
  | cons p rest ih =>
    intro s hp htrace m hm
    simp only [workerRun, sentMessages_append, List.mem_append] at hm
    rcases hm with hm | hm
    · exact workerStep_sent_guard s p.1 p.2 (Or.inr hp) m hm
    · have hnp : isIpcPong p.1 = false := htrace p (by simp)
      have hflag : (workerStep s p.1 p.2).1.receivedPong = s.receivedPong :=
        (workerStep_preserves_flags s p.1 p.2).2 hnp
      exact ih (workerStep s p.1 p.2).1 (hflag.trans hp)
        (fun q hq => htrace q (by simp [hq])) m hm

theorem workerStart_sent_guard (s : WorkerState) (env : WorkerEnv) :
    ∀ m ∈ sentMessages (workerStart s env).2, handshakeSendableTag m := by
  intro m hm
  rw [mem_sentMessages] at hm
  unfold workerStart at hm
  split at hm
  · simp [exitProcess] at hm
  · dsimp only at hm
    rcases hsm : sendMessage { s with nextMsgId := s.nextMsgId + 1 }
      (createPingMessage s.nextMsgId env.now env.uptimeSec) with e | effs
    · rw [hsm] at hm
      simp at hm
    · rw [hsm] at hm
      dsimp only at hm
      rcases sendMessage_ok_shape _ _ _ hsm with he | he <;> subst he <;> simp at hm
      rw [hm]
      simp [handshakeSendableTag, createPingMessage, SfMsgBody.typeTag]

theorem workerStart_preserves_flags (s : WorkerState) (env : WorkerEnv) :
    (workerStart s env).1.receivedPing = s.receivedPing ∧
    (workerStart s env).1.receivedPong = s.receivedPong := by
  unfold workerStart
  split
  · simp [exitProcess]
  · dsimp only
    rcases hsm : sendMessage { s with nextMsgId := s.nextMsgId + 1 }
      (createPingMessage s.nextMsgId env.now env.uptimeSec) with e | effs <;> simp [hsm]

/-- C1: until the worker has received at least one `ping` and at least one
`pong`, every message it actually writes to the IPC channel has type
`error`, `ping` or `pong`; and `sendMessage` drops any other message with a
warning (never writing it) while the handshake is incomplete.  The trace
quantification ranges over every prefix of a worker execution, so in
particular over every execution in which one side of the handshake is still
missing. -/
theorem worker_handshake_gates_traffic (isForked : Bool) (env0 : WorkerEnv)
    (trace : List (WorkerInput × WorkerEnv)) (s : WorkerState) (m0 : SfPdpIpcMessage)
    (htrace : (∀ p ∈ trace, isIpcPing p.1 = false) ∨ (∀ p ∈ trace, isIpcPong p.1 = false))
    (hs : s.receivedPing = false ∨ s.receivedPong = false)
    (hm0 : m0.body.isHandshakeSendable = false) :
    sendMessage s m0 = Except.ok [WorkerEffect.droppedBeforeHandshake m0] ∧
    ∀ m ∈ sentMessages (workerBoot isForked env0 trace).2,
      m.body.typeTag = "error" ∨ m.body.typeTag = "ping" ∨ m.body.typeTag = "pong" := by
  constructor
  · have hguard : (!s.receivedPing || !s.receivedPong) = true := by
      rcases hs with h | h <;> simp [h]
    simp [sendMessage, hguard, hm0]
  · intro m hm
    simp only [workerBoot, sentMessages_append, List.mem_append] at hm
    rcases hm with hm | hm
    · exact workerStart_sent_guard (initialWorkerState isForked) env0 m hm
    · rcases htrace with htrace | htrace
      · refine workerRun_sent_guard_ping trace _ ?_ htrace m hm
        rw [(workerStart_preserves_flags (initialWorkerState isForked) env0).1]
        rfl
      · refine workerRun_sent_guard_pong trace _ ?_ htrace m hm
        rw [(workerStart_preserves_flags (initialWorkerState isForked) env0).2]
        rfl

/-- Witness for `worker_handshake_gates_traffic`: a worker that has received
a ping but no pong; its `getProjects` request and `projectResults` answer
never reach the channel, only the handshake messages do. -/
theorem worker_handshake_gates_traffic_witness :
    sendMessage ((workerStart (initialWorkerState true) ⟨5, 0, true, true, true⟩).1)
      (createGetProjectsMessage 9 6) =
      Except.ok [WorkerEffect.droppedBeforeHandshake (createGetProjectsMessage 9 6)] ∧
    ∀ m ∈ sentMessages (workerBoot true ⟨5, 0, true, true, true⟩
      [(WorkerInput.ipc (createPingMessage 1 5 0), ⟨6, 0, true, true, true⟩),
       (WorkerInput.callGetProjects, ⟨7, 0, true, true, true⟩)]).2,
      m.body.typeTag = "error" ∨ m.body.typeTag = "ping" ∨ m.body.typeTag = "pong" :=
  worker_handshake_gates_traffic true ⟨5, 0, true, true, true⟩
    [(WorkerInput.ipc (createPingMessage 1 5 0), ⟨6, 0, true, true, true⟩),
     (WorkerInput.callGetProjects, ⟨7, 0, true, true, true⟩)]
    ((workerStart (initialWorkerState true) ⟨5, 0, true, true, true⟩).1)
    (createGetProjectsMessage 9 6)
    (Or.inr (by decide)) (Or.inr (by decide)) (by decide)

/-- Witness for `second_initialize_single_error` on a concrete
already-initialized worker. -/
theorem second_initialize_single_error_witness :
    workerStep ⟨5, ⟨some "https://sf", some "wss://sf", some 8876⟩, true, true, true,
        some "tokenA", false, true, none⟩
      (WorkerInput.ipc (createInitializeMessage 7 900 "tokenB" "https://sf2" "wss://sf2" 9999))
      ⟨901, 2, true, true, true⟩ =
      (⟨6, ⟨some "https://sf", some "wss://sf", some 8876⟩, true, true, true,
        some "tokenA", false, true, none⟩,
       [WorkerEffect.warnedAlreadyInitialized,
        WorkerEffect.sent (createErrorMessage 5 901 "Already initialized" none)]) :=
  (second_initialize_single_error
    ⟨5, ⟨some "https://sf", some "wss://sf", some 8876⟩, true, true, true,
      some "tokenA", false, true, none⟩
    ⟨901, 2, true, true, true⟩ 7 900 "tokenB" "https://sf2" "wss://sf2" 9999
    rfl rfl (Or.inl rfl)).1

/-! ## Message ids over traces -/

/-- Ids of the messages a worker execution wrote to the channel, in order. -/
def sentIds (effs : List WorkerEffect) : List Nat :=
  (sentMessages effs).map fun m => m.id

/-- Ids of the non-`pong` messages a worker execution wrote, in order. -/
def nonPongSentIds (effs : List WorkerEffect) : List Nat :=
  (sentMessages effs).filterMap fun m =>
    match m.body with
    | .pong => none
    | _ => some m.id

/-- Ids of the messages a host execution wrote to the channel, in order. -/
def hostSentIds (effs : List HostEffect) : List Nat :=
  (hostSentMessages effs).map fun m => m.id

/-- Decides whether a list of numbers is strictly increasing. -/
def isStrictlyIncreasing : List Nat → Bool
  | [] => true
  | [_] => true
  | a :: b :: t => decide (a < b) && isStrictlyIncreasing (b :: t)

theorem isStrictlyIncreasing_cons (a : Nat) (l : List Nat)
    (h1 : ∀ b ∈ l, a < b) (h2 : isStrictlyIncreasing l = true) :
    isStrictlyIncreasing (a :: l) = true := by
  cases l with
  | nil => rfl
  | cons b t =>
    simp only [isStrictlyIncreasing, Bool.and_eq_true, decide_eq_true_eq]
    exact ⟨h1 b (by simp), h2⟩

/-- The worker execution in which the host ping (id 1) and a pong (id 2)
arrive and then a `getProjects` round trip starts. -/
def echoTrace : List (WorkerInput × WorkerEnv) :=
  [(WorkerInput.ipc (createPingMessage 1 1000 3), ⟨1001, 2, true, true, true⟩),
   (WorkerInput.ipc (createPongMessage 2 1002), ⟨1003, 2, true, true, true⟩),
   (WorkerInput.callGetProjects, ⟨1004, 2, true, true, true⟩)]

/-- C9 counterexample: the worker sends its startup ping with id 0, then
answers the host ping by echoing the received id 1 into the pong
(`createPongMessage(message.id)`), and then sends `getProjects` with its own
counter value 1 — so its outgoing id sequence is 0, 1, 1, which is not
strictly increasing, and the pong was not stamped with a fresh id. -/
theorem worker_ids_not_strictly_increasing :
    sentIds (workerBoot true ⟨1000, 2, true, true, true⟩ echoTrace).2 = [0, 1, 1] ∧
    isStrictlyIncreasing (sentIds (workerBoot true ⟨1000, 2, true, true, true⟩ echoTrace).2)
      = false := by
  decide

theorem hostSentMessages_append (a b : List HostEffect) :
    hostSentMessages (a ++ b) = hostSentMessages a ++ hostSentMessages b := by
  simp [hostSentMessages]

theorem hostSentIds_append (a b : List HostEffect) :
    hostSentIds (a ++ b) = hostSentIds a ++ hostSentIds b := by
  simp [hostSentIds, hostSentMessages_append]

/-- Every host reaction either sends nothing and keeps its state, or sends
exactly one message stamped with the pre-incremented counter and the current
time. -/
theorem hostStep_shape (s : HostState) (env : HostEnv) (mm : SfPdpIpcMessage) :
    ((hostStep s env mm).1 = s ∧ hostSentMessages (hostStep s env mm).2 = []) ∨
    ((hostStep s env mm).1.nextMessageId = s.nextMessageId + 1 ∧
      ∃ m, hostSentMessages (hostStep s env mm).2 = [m] ∧
        m.id = s.nextMessageId + 1 ∧ m.timestamp = env.now) := by
  cases hb : mm.body with
  | getProjects =>
    refine Or.inr ⟨?_, createProjectResultsMessage (s.nextMessageId + 1) env.now
      ((env.apiProjects.getD []).filterMap id), ?_, ?_, ?_⟩
    · simp [hostStep, hb, sendProjectResultsMessage, getNextMessageId]
    · simp [hostStep, hb, sendProjectResultsMessage, getNextMessageId, hostSentMessages]
    · simp [createProjectResultsMessage]
    · simp [createProjectResultsMessage]
  | ping u =>
    refine Or.inr ⟨?_, createPongMessage (s.nextMessageId + 1) env.now, ?_, ?_, ?_⟩
    · simp [hostStep, hb, getNextMessageId]
    · simp [hostStep, hb, getNextMessageId, hostSentMessages]
    · simp [createPongMessage]
    · simp [createPongMessage]
  | pong =>
    by_cases hl : (!env.loggedIn && !env.loginOk) = true
    · exact Or.inl ⟨by simp [hostStep, hb, sendInitializeMessage, hl],
        by simp [hostStep, hb, sendInitializeMessage, hl, hostSentMessages]⟩
    · rcases ht : env.accessToken with _ | tok
      · exact Or.inl ⟨by simp [hostStep, hb, sendInitializeMessage, hl, ht],
          by simp [hostStep, hb, sendInitializeMessage, hl, ht, hostSentMessages]⟩
      · by_cases htok : tok = ""
        · exact Or.inl ⟨by simp [hostStep, hb, sendInitializeMessage, hl, ht, htok],
            by simp [hostStep, hb, sendInitializeMessage, hl, ht, htok, hostSentMessages]⟩
        · refine Or.inr ⟨?_, createInitializeMessage (s.nextMessageId + 1) env.now tok
            env.domain env.webSocketUrl WEBSOCKET_PORT, ?_, ?_, ?_⟩
          · simp [hostStep, hb, sendInitializeMessage, hl, ht, htok, getNextMessageId]
          · simp [hostStep, hb, sendInitializeMessage, hl, ht, htok, getNextMessageId,
              hostSentMessages]
          · simp [createInitializeMessage]
          · simp [createInitializeMessage]
  | initializeMsg a b c d =>
    exact Or.inl ⟨by simp [hostStep, hb], by simp [hostStep, hb, hostSentMessages]⟩
  | projectResults ids =>
    exact Or.inl ⟨by simp [hostStep, hb], by simp [hostStep, hb, hostSentMessages]⟩
  | error e st =>
    exact Or.inl ⟨by simp [hostStep, hb], by simp [hostStep, hb, hostSentMessages]⟩
  | shutdown reason =>
    exact Or.inl ⟨by simp [hostStep, hb], by simp [hostStep, hb, hostSentMessages]⟩
  | authToken =>
    exact Or.inl ⟨by simp [hostStep, hb], by simp [hostStep, hb, hostSentMessages]⟩

theorem hostRun_ids_bound :
    ∀ (trace : List (SfPdpIpcMessage × HostEnv)) (s : HostState),
      (∀ i ∈ hostSentIds (hostRun s trace).2, s.nextMessageId < i) ∧
      s.nextMessageId ≤ (hostRun s trace).1.nextMessageId ∧
      isStrictlyIncreasing (hostSentIds (hostRun s trace).2) = true := by
  intro trace
  induction trace with
  | nil => intro s; simp [hostRun, hostSentIds, hostSentMessages, isStrictlyIncreasing]
  | cons p rest ih =>
    intro s
    have hids : hostSentIds (hostRun s (p :: rest)).2 =
        hostSentIds (hostStep s p.2 p.1).2 ++
          hostSentIds (hostRun (hostStep s p.2 p.1).1 rest).2 := by
      simp [hostRun, hostSentIds_append]
    have hstate : (hostRun s (p :: rest)).1 = (hostRun (hostStep s p.2 p.1).1 rest).1 := by
      simp [hostRun]
    rcases hostStep_shape s p.2 p.1 with ⟨h1, h2⟩ | ⟨h1, m, h2, h3, _⟩
    · have h2i : hostSentIds (hostStep s p.2 p.1).2 = [] := by simp [hostSentIds, h2]
      rw [hids, h2i, hstate, h1]
      have := ih s
      simpa using this
    · have ihs := ih (hostStep s p.2 p.1).1
      have h2i : hostSentIds (hostStep s p.2 p.1).2 = [m.id] := by simp [hostSentIds, h2]
      rw [hids, h2i, hstate, h3]
      refine ⟨?_, ?_, ?_⟩
      · intro i hi
        simp only [List.cons_append, List.nil_append, List.mem_cons] at hi
        rcases hi with hi | hi
        · omega
        · have := ihs.1 i hi
          omega
      · have := ihs.2.1
        omega
      · refine isStrictlyIncreasing_cons _ _ ?_ ihs.2.2
        intro b hb
        have := ihs.1 b hb
        omega

theorem hostBoot_ids_mono (env0 : HostEnv) (trace : List (SfPdpIpcMessage × HostEnv)) :
    isStrictlyIncreasing (hostSentIds (hostBoot env0 trace).2) = true := by
  unfold hostBoot initializeChildProcess
  simp only [initialHostState, Bool.false_eq_true, if_false, getNextMessageId]
  rw [hostSentIds_append]
  have hfirst : hostSentIds [HostEffect.sent (createPingMessage (0 + 1) env0.now env0.uptimeSec)]
      = [1] := by
    simp [hostSentIds, hostSentMessages, createPingMessage]
  rw [hfirst]
  have hrun := hostRun_ids_bound trace ⟨true, 0 + 1⟩
  refine isStrictlyIncreasing_cons _ _ ?_ hrun.2.2
  intro b hb
  exact hrun.1 b hb

theorem runInitializeSteps_nextMsgId (s : WorkerState) (env : WorkerEnv) :
    (runInitializeSteps s env).1.nextMsgId = s.nextMsgId := by
  unfold runInitializeSteps exitProcess
  rcases hp : s.config.papiPort with _ | port
  · simp [hp]
  · rcases port with _ | p
    · simp [hp]
    · by_cases hpc : env.papiConnectOk
      · rcases hw : s.config.wssBaseUrl with _ | wss
        · simp [hp, hpc, hw]
        · rcases ht : s.currentAuthToken with _ | tok
          · simp [hp, hpc, hw, ht]
          · by_cases hwss : wss = ""
            · simp [hp, hpc, hw, ht, hwss]
            · by_cases htok : tok = ""
              · simp [hp, hpc, hw, ht, hwss, htok]
              · by_cases hbc : env.backendConnectOk
                · by_cases hreg : env.registerOk <;>
                    simp [hp, hpc, hw, ht, hwss, htok, hbc, hreg]
                · simp [hp, hpc, hw, ht, hwss, htok, hbc]
      · simp [hp, hpc]

/-- Each worker step sends at most one non-`pong` message; when it does, the
message carries the pre-step counter value and the counter advances by one;
every sent message is stamped with the step's current time; and a `ping` is
answered (if at all) by a pong that echoes the id of the received ping. -/
theorem workerStep_sent_master (s : WorkerState) (inp : WorkerInput) (env : WorkerEnv) :
    (nonPongSentIds (workerStep s inp env).2 = [] ∧
        s.nextMsgId ≤ (workerStep s inp env).1.nextMsgId ∨
      nonPongSentIds (workerStep s inp env).2 = [s.nextMsgId] ∧
        (workerStep s inp env).1.nextMsgId = s.nextMsgId + 1) ∧
    (∀ m ∈ sentMessages (workerStep s inp env).2, m.timestamp = env.now) ∧
    (∀ mi u, inp = WorkerInput.ipc mi → mi.body = SfMsgBody.ping u →
      sentMessages (workerStep s inp env).2 = [] ∨
      sentMessages (workerStep s inp env).2 = [createPongMessage mi.id env.now]) := by
  by_cases hex : s.exitCode.isSome = true
  · simp [workerStep, hex, nonPongSentIds, sentMessages]
  · simp only [Bool.not_eq_true] at hex
    cases inp with
    | sigint => simp [workerStep, hex, exitProcess, nonPongSentIds, sentMessages]
    | sigterm => simp [workerStep, hex, exitProcess, nonPongSentIds, sentMessages]
    | callGetProjects =>
      rcases hg : workerGetProjects s env with e | res2
      · simp [workerStep, hex, hg, exitProcess, nonPongSentIds, sentMessages]
      · simp only [workerStep, hex, Bool.false_eq_true, if_false, hg]
        unfold workerGetProjects at hg
        split at hg
        · simp only [Except.ok.injEq] at hg
          rw [← hg]
          simp [nonPongSentIds, sentMessages]
        · dsimp only at hg
          rcases hsm : sendMessage
            { s with pendingProjectResults := true, nextMsgId := s.nextMsgId + 1 }
            (createGetProjectsMessage s.nextMsgId env.now) with e2 | effs
          · rw [hsm] at hg
            simp [Bind.bind, Except.bind] at hg
          · rw [hsm] at hg
            simp only [Bind.bind, Except.bind, Except.ok.injEq] at hg
            rw [← hg]
            rcases sendMessage_ok_shape _ _ _ hsm with he | he <;> subst he <;>
              simp [nonPongSentIds, sentMessages, createGetProjectsMessage]
    | ipc mi =>
      rcases hh : handleMessage s env mi with e | res2
      · simp [workerStep, hex, hh, exitProcess, nonPongSentIds, sentMessages]
      · simp only [workerStep, hex, Bool.false_eq_true, if_false, hh]
        unfold handleMessage at hh
        cases hb : mi.body with
        | initializeMsg a b c d =>
          rw [hb] at hh
          dsimp only at hh
          unfold handleInitializeMessage at hh
          split at hh
          · dsimp only at hh
            rcases hsm : sendMessage { s with nextMsgId := s.nextMsgId + 1 }
              (createErrorMessage s.nextMsgId env.now "Already initialized" none) with e2 | effs
            · rw [hsm] at hh
              simp [Bind.bind, Except.bind] at hh
            · rw [hsm] at hh
              simp only [Bind.bind, Except.bind, Except.ok.injEq] at hh
              rcases sendMessage_ok_shape _ _ _ hsm with he | he
              · subst he
                rw [← hh]
                simp [nonPongSentIds, sentMessages]
              · subst he
                rw [← hh]
                refine ⟨Or.inr ⟨?_, ?_⟩, ?_, ?_⟩
                · simp [nonPongSentIds, sentMessages, createErrorMessage]
                · simp
                · intro m hm
                  simp only [sentMessages, List.filterMap_cons, List.filterMap_nil] at hm
                  simp only [List.mem_cons, List.not_mem_nil, or_false] at hm
                  rw [hm]
                  rfl
                · intro mi2 u h1 h2
                  exfalso
                  have hmm : mi = mi2 := by injection h1
                  rw [← hmm, hb] at h2
                  exact absurd h2 (by simp)
          · simp only [Except.ok.injEq] at hh
            rcases hri : runInitializeSteps { s with currentAuthToken := some a, config := ⟨some b, some c, some d⟩ } env with ⟨s3, effs3⟩
            rw [hri] at hh
            dsimp only at hh
            have hmid : s3.nextMsgId = s.nextMsgId := by
              have h4 := runInitializeSteps_nextMsgId { s with currentAuthToken := some a, config := ⟨some b, some c, some d⟩ } env
              rw [hri] at h4
              exact h4
            have hnos : ∀ m, WorkerEffect.sent m ∉ effs3 := by
              intro m
              have h4 := runInitializeSteps_no_sent { s with currentAuthToken := some a, config := ⟨some b, some c, some d⟩ } env m
              rw [hri] at h4
              exact h4
            have hsent : sentMessages (WorkerEffect.setOriginCalled b :: effs3) = [] := by
              rcases hres : sentMessages (WorkerEffect.setOriginCalled b :: effs3) with _ | ⟨x, xs⟩
              · rfl
              · exfalso
                have hx : x ∈ sentMessages (WorkerEffect.setOriginCalled b :: effs3) := by
                  rw [hres]; simp
                rw [mem_sentMessages] at hx
                simp only [List.mem_cons, reduceCtorEq, false_or] at hx
                exact hnos x hx
            rw [← hh]
            refine ⟨Or.inl ⟨?_, ?_⟩, ?_, ?_⟩
            · simp [nonPongSentIds, hsent]
            · simp [hmid]
            · intro m hm
              simp only [hsent] at hm
              simp at hm
            · intro mi2 u h1 h2
              exact Or.inl (by simpa using hsent)
        | ping u =>
          rw [hb] at hh
          dsimp only at hh
          unfold handlePing at hh
          dsimp only at hh
          rcases hsm : sendMessage { s with receivedPing := true }
            (createPongMessage mi.id env.now) with e2 | effs
          · rw [hsm] at hh
            simp [Bind.bind, Except.bind] at hh
          · rw [hsm] at hh
            simp only [Bind.bind, Except.bind, Except.ok.injEq] at hh
            rcases sendMessage_ok_shape _ _ _ hsm with he | he
            · subst he
              rw [← hh]
              simp [nonPongSentIds, sentMessages]
            · subst he
              rw [← hh]
              refine ⟨Or.inl ⟨?_, ?_⟩, ?_, ?_⟩
              · simp [nonPongSentIds, sentMessages, createPongMessage]
              · simp
              · intro m hm
                simp [sentMessages] at hm
                rw [hm]
                rfl
              · intro mi2 u2 h1 h2
                have hmm : mi = mi2 := by injection h1
                subst hmm
                exact Or.inr (by simp [sentMessages])
        | pong =>
          rw [hb] at hh
          dsimp only at hh
          unfold handlePong at hh
          simp only [Except.ok.injEq] at hh
          rw [← hh]
          simp [nonPongSentIds, sentMessages, hb]
        | projectResults ids =>
          rw [hb] at hh
          dsimp only at hh
          unfold handleProjectResults at hh
          split at hh
          all_goals simp only [Except.ok.injEq] at hh
          all_goals rw [← hh]
          all_goals simp [nonPongSentIds, sentMessages, hb]
        | shutdown reason =>
          rw [hb] at hh
          dsimp only at hh
          unfold handleShutdown at hh
          simp only [Except.ok.injEq] at hh
          rw [← hh]
          simp [nonPongSentIds, sentMessages, exitProcess, hb]
        | getProjects =>
          rw [hb] at hh
          dsimp only at hh
          simp only [Except.ok.injEq] at hh
          rw [← hh]
          simp [nonPongSentIds, sentMessages, hb]
        | error e2 st =>
          rw [hb] at hh
          dsimp only at hh
          simp only [Except.ok.injEq] at hh
          rw [← hh]
          simp [nonPongSentIds, sentMessages, hb]
        | authToken =>
          rw [hb] at hh
          dsimp only at hh
          simp only [Except.ok.injEq] at hh
          rw [← hh]
          simp [nonPongSentIds, sentMessages, hb]

theorem nonPongSentIds_append (a b : List WorkerEffect) :
    nonPongSentIds (a ++ b) = nonPongSentIds a ++ nonPongSentIds b := by
  simp [nonPongSentIds, sentMessages_append]

theorem workerStart_sent_shape (s : WorkerState) (env : WorkerEnv) :
    (nonPongSentIds (workerStart s env).2 = [] ∧
        s.nextMsgId ≤ (workerStart s env).1.nextMsgId ∨
      nonPongSentIds (workerStart s env).2 = [s.nextMsgId] ∧
        (workerStart s env).1.nextMsgId = s.nextMsgId + 1) ∧
    (∀ m ∈ sentMessages (workerStart s env).2, m.timestamp = env.now) := by
  unfold workerStart
  split
  · simp [exitProcess, nonPongSentIds, sentMessages]
  · dsimp only
    rcases hsm : sendMessage { s with nextMsgId := s.nextMsgId + 1 }
      (createPingMessage s.nextMsgId env.now env.uptimeSec) with e | effs
    · simp [hsm, nonPongSentIds, sentMessages]
    · simp only [hsm]
      rcases sendMessage_ok_shape _ _ _ hsm with he | he <;> subst he
      · simp [nonPongSentIds, sentMessages]
      · refine ⟨Or.inr ⟨?_, ?_⟩, ?_⟩
        · simp [nonPongSentIds, sentMessages, createPingMessage]
        · simp
        · intro m hm
          simp [sentMessages] at hm
          rw [hm]
          rfl

theorem workerRun_nonPong_bound :
    ∀ (trace : List (WorkerInput × WorkerEnv)) (s : WorkerState),
      (∀ i ∈ nonPongSentIds (workerRun s trace).2, s.nextMsgId ≤ i) ∧
      s.nextMsgId ≤ (workerRun s trace).1.nextMsgId ∧
      isStrictlyIncreasing (nonPongSentIds (workerRun s trace).2) = true := by
  intro trace
  induction trace with
  | nil => intro s; simp [workerRun, nonPongSentIds, sentMessages, isStrictlyIncreasing]
  | cons p rest ih =>
    intro s
    have hids : nonPongSentIds (workerRun s (p :: rest)).2 =
        nonPongSentIds (workerStep s p.1 p.2).2 ++
          nonPongSentIds (workerRun (workerStep s p.1 p.2).1 rest).2 := by
      simp [workerRun, nonPongSentIds_append]
    have hstate : (workerRun s (p :: rest)).1 = (workerRun (workerStep s p.1 p.2).1 rest).1 := by
      simp [workerRun]
    have ihs := ih (workerStep s p.1 p.2).1
    rcases (workerStep_sent_master s p.1 p.2).1 with ⟨h1, h2⟩ | ⟨h1, h2⟩
    · rw [hids, h1, hstate]
      refine ⟨?_, ?_, by simpa using ihs.2.2⟩
      · intro i hi
        simp only [List.nil_append] at hi
        have := ihs.1 i hi
        omega
      · have := ihs.2.1
        omega
    · rw [hids, h1, hstate]
      refine ⟨?_, ?_, ?_⟩
      · intro i hi
        simp only [List.cons_append, List.nil_append, List.mem_cons] at hi
        rcases hi with hi | hi
        · omega
        · have := ihs.1 i hi
          omega
      · have := ihs.2.1
        omega
      · refine isStrictlyIncreasing_cons _ _ ?_ ihs.2.2
        intro b hb
        have := ihs.1 b hb
        omega

theorem workerBoot_nonPong_mono (isForked : Bool) (env0 : WorkerEnv)
    (trace : List (WorkerInput × WorkerEnv)) :
    isStrictlyIncreasing (nonPongSentIds (workerBoot isForked env0 trace).2) = true := by
  unfold workerBoot
  dsimp only
  rw [nonPongSentIds_append]
  have hrun := workerRun_nonPong_bound trace (workerStart (initialWorkerState isForked) env0).1
  rcases (workerStart_sent_shape (initialWorkerState isForked) env0).1 with ⟨h1, h2⟩ | ⟨h1, h2⟩
  · rw [h1]
    simpa using hrun.2.2
  · rw [h1]
    refine isStrictlyIncreasing_cons _ _ ?_ hrun.2.2
    intro b hb
    have hbl := hrun.1 b (by simpa using hb)
    simp only [initialWorkerState] at h2 hbl ⊢
    omega

/-- C9 (amended): the host stamps every outgoing message from its
pre-incremented counter, so the ids it sends are strictly increasing over
any execution; the worker does the same for every message except its pong
replies, which echo the id of the ping being answered — hence only the
worker's non-pong id sequence is strictly increasing; and every message
either side constructs is stamped with the current timestamp. -/
theorem message_ids_per_sender (isForked : Bool) (env0 : WorkerEnv)
    (trace : List (WorkerInput × WorkerEnv))
    (henv0 : HostEnv) (htrace : List (SfPdpIpcMessage × HostEnv))
    (s : WorkerState) (inp : WorkerInput) (env : WorkerEnv)
    (hs : HostState) (henv : HostEnv) (hmsg : SfPdpIpcMessage) :
    isStrictlyIncreasing (hostSentIds (hostBoot henv0 htrace).2) = true ∧
    isStrictlyIncreasing (nonPongSentIds (workerBoot isForked env0 trace).2) = true ∧
    (∀ mi u, inp = WorkerInput.ipc mi → mi.body = SfMsgBody.ping u →
      sentMessages (workerStep s inp env).2 = [] ∨
      sentMessages (workerStep s inp env).2 = [createPongMessage mi.id env.now]) ∧
    (∀ m ∈ sentMessages (workerStep s inp env).2, m.timestamp = env.now) ∧
    (∀ m ∈ hostSentMessages (hostStep hs henv hmsg).2, m.timestamp = henv.now) := by
  refine ⟨hostBoot_ids_mono henv0 htrace, workerBoot_nonPong_mono isForked env0 trace,
    (workerStep_sent_master s inp env).2.2, (workerStep_sent_master s inp env).2.1, ?_⟩
  intro m hm
  rcases hostStep_shape hs henv hmsg with ⟨_, h2⟩ | ⟨_, m2, h2, _, h4⟩
  · rw [h2] at hm
    simp at hm
  · rw [h2] at hm
    simp only [List.mem_singleton] at hm
    rw [hm]
    exact h4

/-! ## Single-flight behaviour of the directory-cache stampede -/

/-- Number of remote calls charged to a factory configuration: one if a
refresh has already succeeded (`lastGetProjectsTime` was set), plus one if a
task currently holds the mutex with its remote call in flight. -/
def apiCallsIssued (f : FactoryState) (holder : Option Nat) : Nat :=
  (if f.lastGetProjectsTime = 0 then 0 else 1) + (if holder.isSome then 1 else 0)

theorem getElemQ_set_self {α : Type} (l : List α) (i : Nat) (a t : α)
    (h : l[i]? = some t) : (l.set i a)[i]? = some a := by
  have hlen := (List.getElem?_eq_some.mp h).1
  simp [List.getElem?_set_self', List.getElem?_eq_getElem hlen]

/-- Invariant of an unforced stampede on a fresh (never-successfully
refreshed) directory cache, run entirely inside one throttle window
`[T, T + throttle)` with all remote calls succeeding.  `snap0` is the
snapshot stored when the stampede began. -/
structure StampedeInv (snap0 : Snapshot) (T : Nat) (f : FactoryState)
    (ts : List FactoryTask) (holder : Option Nat) : Prop where
  loggedOut : f.isLoggedOut = false
  snap0Lt : snap0.sid < f.nextSnapshotId
  curLt : f.lastAvailableProjects.sid < f.nextSnapshotId
  forceAll : ∀ (j : Nat) (t : FactoryTask), ts[j]? = some t → t.force = false
  holderApi : ∀ i, holder = some i →
    ∃ t, ts[i]? = some t ∧ t.phase = FactoryPhase.awaitApi
  apiHolder : ∀ (j : Nat) (t : FactoryTask), ts[j]? = some t →
    t.phase = FactoryPhase.awaitApi → holder = some j
  pre : f.lastGetProjectsTime = 0 →
    f.lastAvailableProjects = snap0 ∧
    ∀ (j : Nat) (t : FactoryTask), ts[j]? = some t →
      t.phase = FactoryPhase.entry ∨ t.phase = FactoryPhase.waitMutex snap0 ∨
        t.phase = FactoryPhase.awaitApi
  post : f.lastGetProjectsTime ≠ 0 →
    T ≤ f.lastGetProjectsTime ∧
    f.lastAvailableProjects.sid ≠ snap0.sid ∧
    ∀ (j : Nat) (t : FactoryTask), ts[j]? = some t →
      t.phase = FactoryPhase.entry ∨ t.phase = FactoryPhase.waitMutex snap0 ∨
        t.phase = FactoryPhase.done f.lastAvailableProjects

theorem countRemoteCalls_cons_remote (effs : List FactoryEffect) :
    countRemoteCalls (FactoryEffect.remoteGetProjects :: effs) = countRemoteCalls effs + 1 := by
  simp [countRemoteCalls, Nat.add_comm]

/-- Replacing a non-`awaitApi` task with another non-`awaitApi` task whose
phase is admissible for the current epoch preserves the stampede
invariant. -/
theorem stampedeInv_set (snap0 : Snapshot) (T : Nat) (f : FactoryState)
    (ts : List FactoryTask) (holder : Option Nat) (i : Nat) (t t' : FactoryTask)
    (hinv : StampedeInv snap0 T f ts holder)
    (hti : ts[i]? = some t)
    (htApi : t.phase ≠ FactoryPhase.awaitApi)
    (ht'Api : t'.phase ≠ FactoryPhase.awaitApi)
    (ht'force : t'.force = false)
    (ht'pre : f.lastGetProjectsTime = 0 →
      t'.phase = FactoryPhase.entry ∨ t'.phase = FactoryPhase.waitMutex snap0)
    (ht'post : f.lastGetProjectsTime ≠ 0 →
      t'.phase = FactoryPhase.entry ∨ t'.phase = FactoryPhase.waitMutex snap0 ∨
        t'.phase = FactoryPhase.done f.lastAvailableProjects) :
    StampedeInv snap0 T f (ts.set i t') holder := by
  refine ⟨hinv.loggedOut, hinv.snap0Lt, hinv.curLt, ?_, ?_, ?_, ?_, ?_⟩
  · intro j t2 hj
    by_cases hij : i = j
    · subst hij
      rw [getElemQ_set_self ts i t' t hti] at hj
      cases hj
      exact ht'force
    · rw [List.getElem?_set_ne hij] at hj
      exact hinv.forceAll j t2 hj
  · intro i0 hh
    obtain ⟨t0, ht0, ht0api⟩ := hinv.holderApi i0 hh
    by_cases hij : i = i0
    · subst hij
      rw [hti] at ht0
      cases ht0
      exact absurd ht0api htApi
    · exact ⟨t0, by rw [List.getElem?_set_ne hij]; exact ht0, ht0api⟩
  · intro j t2 hj hapi
    by_cases hij : i = j
    · subst hij
      rw [getElemQ_set_self ts i t' t hti] at hj
      cases hj
      exact absurd hapi ht'Api
    · rw [List.getElem?_set_ne hij] at hj
      exact hinv.apiHolder j t2 hj hapi
  · intro htime
    obtain ⟨hsnap, hphases⟩ := hinv.pre htime
    refine ⟨hsnap, ?_⟩
    intro j t2 hj
    by_cases hij : i = j
    · subst hij
      rw [getElemQ_set_self ts i t' t hti] at hj
      cases hj
      rcases ht'pre htime with h | h
      · exact Or.inl h
      · exact Or.inr (Or.inl h)
    · rw [List.getElem?_set_ne hij] at hj
      exact hphases j t2 hj
  · intro htime
    obtain ⟨hT2, hsid, hphases⟩ := hinv.post htime
    refine ⟨hT2, hsid, ?_⟩
    intro j t2 hj
    by_cases hij : i = j
    · subst hij
      rw [getElemQ_set_self ts i t' t hti] at hj
      cases hj
      exact ht'post htime
    · rw [List.getElem?_set_ne hij] at hj
      exact hphases j t2 hj

theorem runFactoryTasks_oob (f : FactoryState) (ts : List FactoryTask) (holder : Option Nat)
    (i now : Nat) (out : ApiGetProjectsOutcome) (rest : List (Nat × Nat × ApiGetProjectsOutcome))
    (hti : ts[i]? = none) :
    runFactoryTasks f ts holder ((i, now, out) :: rest) = runFactoryTasks f ts holder rest := by
  simp [runFactoryTasks, hti]

theorem runFactoryTasks_done (f : FactoryState) (ts : List FactoryTask) (holder : Option Nat)
    (i now : Nat) (out : ApiGetProjectsOutcome) (rest : List (Nat × Nat × ApiGetProjectsOutcome))
    (tf : Bool) (r : Snapshot)
    (hti : ts[i]? = some ⟨tf, FactoryPhase.done r⟩) :
    runFactoryTasks f ts holder ((i, now, out) :: rest) = runFactoryTasks f ts holder rest := by
  simp [runFactoryTasks, hti]

theorem runFactoryTasks_entry_throttled (f : FactoryState) (ts : List FactoryTask)
    (holder : Option Nat) (i now : Nat) (out : ApiGetProjectsOutcome)
    (rest : List (Nat × Nat × ApiGetProjectsOutcome))
    (hti : ts[i]? = some ⟨false, FactoryPhase.entry⟩)
    (hlo : f.isLoggedOut = false)
    (hth : now - f.lastGetProjectsTime < GET_PROJECTS_THROTTLE_MS) :
    runFactoryTasks f ts holder ((i, now, out) :: rest) =
      runFactoryTasks f
        (ts.set i ⟨false, FactoryPhase.done f.lastAvailableProjects⟩) holder rest := by
  simp [runFactoryTasks, hti, hlo, hth]

theorem runFactoryTasks_entry_wait (f : FactoryState) (ts : List FactoryTask)
    (holder : Option Nat) (i now : Nat) (out : ApiGetProjectsOutcome)
    (rest : List (Nat × Nat × ApiGetProjectsOutcome))
    (hti : ts[i]? = some ⟨false, FactoryPhase.entry⟩)
    (hlo : f.isLoggedOut = false)
    (hth : ¬ now - f.lastGetProjectsTime < GET_PROJECTS_THROTTLE_MS) :
    runFactoryTasks f ts holder ((i, now, out) :: rest) =
      runFactoryTasks f
        (ts.set i ⟨false, FactoryPhase.waitMutex f.lastAvailableProjects⟩) holder rest := by
  simp [runFactoryTasks, hti, hlo, hth]

theorem runFactoryTasks_wait_blocked (f : FactoryState) (ts : List FactoryTask)
    (holder : Option Nat) (i now : Nat) (out : ApiGetProjectsOutcome)
    (rest : List (Nat × Nat × ApiGetProjectsOutcome)) (tf : Bool) (captured : Snapshot)
    (hti : ts[i]? = some ⟨tf, FactoryPhase.waitMutex captured⟩)
    (hh : holder.isSome = true) :
    runFactoryTasks f ts holder ((i, now, out) :: rest) = runFactoryTasks f ts holder rest := by
  simp [runFactoryTasks, hti, hh]

theorem runFactoryTasks_wait_recheck (f : FactoryState) (ts : List FactoryTask)
    (i now : Nat) (out : ApiGetProjectsOutcome)
    (rest : List (Nat × Nat × ApiGetProjectsOutcome)) (captured : Snapshot)
    (hti : ts[i]? = some ⟨false, FactoryPhase.waitMutex captured⟩)
    (hsid : captured.sid ≠ f.lastAvailableProjects.sid) :
    runFactoryTasks f ts none ((i, now, out) :: rest) =
      runFactoryTasks f
        (ts.set i ⟨false, FactoryPhase.done f.lastAvailableProjects⟩) none rest := by
  simp [runFactoryTasks, hti, hsid]

theorem runFactoryTasks_wait_acquire (f : FactoryState) (ts : List FactoryTask)
    (i now : Nat) (out : ApiGetProjectsOutcome)
    (rest : List (Nat × Nat × ApiGetProjectsOutcome)) (captured : Snapshot)
    (hti : ts[i]? = some ⟨false, FactoryPhase.waitMutex captured⟩)
    (hsid : captured.sid = f.lastAvailableProjects.sid) :
    runFactoryTasks f ts none ((i, now, out) :: rest) =
      (let r := runFactoryTasks f (ts.set i ⟨false, FactoryPhase.awaitApi⟩) (some i) rest
       (r.1, r.2.1, r.2.2.1, FactoryEffect.remoteGetProjects :: r.2.2.2)) := by
  simp [runFactoryTasks, hti, hsid]

theorem runFactoryTasks_api_other (f : FactoryState) (ts : List FactoryTask)
    (holder : Option Nat) (i now : Nat) (out : ApiGetProjectsOutcome)
    (rest : List (Nat × Nat × ApiGetProjectsOutcome)) (tf : Bool)
    (hti : ts[i]? = some ⟨tf, FactoryPhase.awaitApi⟩)
    (hh : holder ≠ some i) :
    runFactoryTasks f ts holder ((i, now, out) :: rest) = runFactoryTasks f ts holder rest := by
  simp [runFactoryTasks, hti, hh]

theorem runFactoryTasks_api_ok (f : FactoryState) (ts : List FactoryTask)
    (i now : Nat) (infos : List ScriptureForgeProjectInfo)
    (rest : List (Nat × Nat × ApiGetProjectsOutcome)) (tf : Bool)
    (hti : ts[i]? = some ⟨tf, FactoryPhase.awaitApi⟩) :
    runFactoryTasks f ts (some i) ((i, now, ApiGetProjectsOutcome.ok infos) :: rest) =
      runFactoryTasks
        { f with
          lastGetProjectsTime := now,
          projectInfoByAppProjectId :=
            infos.foldl (fun m info => (getSlingshotAppProjectId info.paratextId, info) :: m)
              f.projectInfoByAppProjectId,
          lastAvailableProjects :=
            Snapshot.mk f.nextSnapshotId
              (infos.map fun info => getSlingshotAppProjectId info.paratextId),
          nextSnapshotId := f.nextSnapshotId + 1 }
        (ts.set i ⟨tf, FactoryPhase.done
          (Snapshot.mk f.nextSnapshotId
            (infos.map fun info => getSlingshotAppProjectId info.paratextId))⟩)
        none rest := by
  simp [runFactoryTasks, hti]

/-- Core single-flight lemma: running any interleaving of unforced
directory-cache tasks inside one throttle window, with every remote call
succeeding, preserves the stampede invariant, and the number of remote
calls emitted equals the growth of `apiCallsIssued`. -/
theorem stampede_run (snap0 : Snapshot) (T : Nat) (hT : GET_PROJECTS_THROTTLE_MS ≤ T) :
    ∀ (sched : List (Nat × Nat × ApiGetProjectsOutcome)) (f : FactoryState)
      (ts : List FactoryTask) (holder : Option Nat),
      StampedeInv snap0 T f ts holder →
      (∀ e ∈ sched, T ≤ e.2.1 ∧ e.2.1 < T + GET_PROJECTS_THROTTLE_MS ∧
        ∃ infos, e.2.2 = ApiGetProjectsOutcome.ok infos) →
      StampedeInv snap0 T (runFactoryTasks f ts holder sched).1
          (runFactoryTasks f ts holder sched).2.1
          (runFactoryTasks f ts holder sched).2.2.1 ∧
      countRemoteCalls (runFactoryTasks f ts holder sched).2.2.2 + apiCallsIssued f holder =
        apiCallsIssued (runFactoryTasks f ts holder sched).1
          (runFactoryTasks f ts holder sched).2.2.1 := by
  intro sched
  induction sched with
  | nil =>
    intro f ts holder hinv _
    exact ⟨hinv, by simp [runFactoryTasks, countRemoteCalls]⟩
  | cons e rest ih =>
    rcases e with ⟨i, now, out⟩
    intro f ts holder hinv hsched
    have hnowT : T ≤ now := (hsched ⟨i, now, out⟩ (by simp)).1
    have hnowW : now < T + GET_PROJECTS_THROTTLE_MS := (hsched ⟨i, now, out⟩ (by simp)).2.1
    obtain ⟨infos, hout⟩ : ∃ infos, out = ApiGetProjectsOutcome.ok infos :=
      (hsched ⟨i, now, out⟩ (by simp)).2.2
    have hrest : ∀ e2 ∈ rest, T ≤ e2.2.1 ∧ e2.2.1 < T + GET_PROJECTS_THROTTLE_MS ∧
        ∃ infos2, e2.2.2 = ApiGetProjectsOutcome.ok infos2 :=
      fun e2 he2 => hsched e2 (by simp [he2])
    subst hout
    rcases hti : ts[i]? with _ | t
    · rw [runFactoryTasks_oob f ts holder i now _ rest hti]
      exact ih f ts holder hinv hrest
    · rcases t with ⟨tf, tph⟩
      have hforce : tf = false := hinv.forceAll i ⟨tf, tph⟩ hti
      subst hforce
      rcases tph with _ | captured | _ | res
      · -- entry
        by_cases htime : f.lastGetProjectsTime = 0
        · obtain ⟨hsnap, _⟩ := hinv.pre htime
          have hth : ¬ now - f.lastGetProjectsTime < GET_PROJECTS_THROTTLE_MS := by
            rw [htime]
            simp only [Nat.sub_zero]
            omega
          rw [runFactoryTasks_entry_wait f ts holder i now _ rest hti hinv.loggedOut hth]
          refine ih f _ holder ?_ hrest
          refine stampedeInv_set snap0 T f ts holder i _ _ hinv hti (by simp) (by simp) rfl
            ?_ ?_
          · intro _
            exact Or.inr (by rw [hsnap])
          · intro h2
            exact absurd htime h2
        · obtain ⟨hTtime, _, _⟩ := hinv.post htime
          have hth : now - f.lastGetProjectsTime < GET_PROJECTS_THROTTLE_MS := by omega
          rw [runFactoryTasks_entry_throttled f ts holder i now _ rest hti hinv.loggedOut hth]
          refine ih f _ holder ?_ hrest
          refine stampedeInv_set snap0 T f ts holder i _ _ hinv hti (by simp) (by simp) rfl
            ?_ ?_
          · intro h2
            exact absurd h2 htime
          · intro _
            exact Or.inr (Or.inr rfl)
      · -- waitMutex
        have hcap : captured = snap0 := by
          by_cases htime : f.lastGetProjectsTime = 0
          · obtain ⟨_, hphases⟩ := hinv.pre htime
            rcases hphases i _ hti with h2 | h2 | h2 <;> simp only [] at h2
            · exact absurd h2 (by simp)
            · injection h2
            · exact absurd h2 (by simp)
          · obtain ⟨_, _, hphases⟩ := hinv.post htime
            rcases hphases i _ hti with h2 | h2 | h2 <;> simp only [] at h2
            · exact absurd h2 (by simp)
            · injection h2
            · exact absurd h2 (by simp)
        rcases hhold : holder with _ | h0
        · by_cases hsid : captured.sid = f.lastAvailableProjects.sid
          · -- the snapshot identity is unchanged: acquire and call the API
            have htime : f.lastGetProjectsTime = 0 := by
              by_contra htime
              obtain ⟨_, hsid2, _⟩ := hinv.post htime
              rw [hcap] at hsid
              exact hsid2 hsid.symm
            rw [runFactoryTasks_wait_acquire f ts i now _ rest captured hti hsid]
            have hinv2 : StampedeInv snap0 T f
                (ts.set i ⟨false, FactoryPhase.awaitApi⟩) (some i) := by
              obtain ⟨hsnap, hphases⟩ := hinv.pre htime
              refine ⟨hinv.loggedOut, hinv.snap0Lt, hinv.curLt, ?_, ?_, ?_, ?_, ?_⟩
              · intro j t2 hj
                by_cases hij : i = j
                · subst hij
                  rw [getElemQ_set_self ts i _ _ hti] at hj
                  cases hj
                  rfl
                · rw [List.getElem?_set_ne hij] at hj
                  exact hinv.forceAll j t2 hj
              · intro i0 hh
                cases hh
                exact ⟨_, getElemQ_set_self ts i _ _ hti, rfl⟩
              · intro j t2 hj hapi
                by_cases hij : i = j
                · subst hij
                  rfl
                · rw [List.getElem?_set_ne hij] at hj
                  have h2 := hinv.apiHolder j t2 hj hapi
                  rw [hhold] at h2
                  cases h2
              · intro htime2
                refine ⟨hsnap, ?_⟩
                intro j t2 hj
                by_cases hij : i = j
                · subst hij
                  rw [getElemQ_set_self ts i _ _ hti] at hj
                  cases hj
                  exact Or.inr (Or.inr rfl)
                · rw [List.getElem?_set_ne hij] at hj
                  exact hphases j t2 hj
              · intro htime2
                exact absurd htime htime2
            have hih := ih f _ (some i) hinv2 hrest
            refine ⟨hih.1, ?_⟩
            dsimp only
            rw [countRemoteCalls_cons_remote]
            have heq := hih.2
            simp [apiCallsIssued, htime] at heq ⊢
            omega
          · -- the snapshot was already replaced: return the newer one
            rw [runFactoryTasks_wait_recheck f ts i now _ rest captured hti hsid]
            refine ih f _ none ?_ hrest
            have htime : f.lastGetProjectsTime ≠ 0 := by
              intro htime
              obtain ⟨hsnap, _⟩ := hinv.pre htime
              rw [hcap, hsnap] at hsid
              exact hsid rfl
            have hinv0 : StampedeInv snap0 T f ts none := by rw [← hhold]; exact hinv
            refine stampedeInv_set snap0 T f ts none i _ _ hinv0 hti (by simp) (by simp) rfl
              ?_ ?_
            · intro h2
              exact absurd h2 htime
            · intro _
              exact Or.inr (Or.inr rfl)
        · -- mutex is held by someone: this task cannot advance
          rw [runFactoryTasks_wait_blocked f ts (some h0) i now _ rest false captured hti
            (by simp)]
          have hinv0 : StampedeInv snap0 T f ts (some h0) := by rw [← hhold]; exact hinv
          exact ih f ts (some h0) hinv0 hrest
      · -- awaitApi
        by_cases hhold : holder = some i
        · subst hhold
          have htime : f.lastGetProjectsTime = 0 := by
            by_contra htime
            obtain ⟨_, _, hphases⟩ := hinv.post htime
            rcases hphases i _ hti with h2 | h2 | h2 <;> simp only [] at h2 <;>
              exact absurd h2 (by simp)
          obtain ⟨hsnap, hphases⟩ := hinv.pre htime
          rw [runFactoryTasks_api_ok f ts i now infos rest false hti]
          have hnow0 : now ≠ 0 := by
            have := hT
            simp only [GET_PROJECTS_THROTTLE_MS] at this
            omega
          have hinv2 : StampedeInv snap0 T
              { f with
                lastGetProjectsTime := now,
                projectInfoByAppProjectId :=
                  infos.foldl
                    (fun m info => (getSlingshotAppProjectId info.paratextId, info) :: m)
                    f.projectInfoByAppProjectId,
                lastAvailableProjects :=
                  Snapshot.mk f.nextSnapshotId
                    (infos.map fun info => getSlingshotAppProjectId info.paratextId),
                nextSnapshotId := f.nextSnapshotId + 1 }
              (ts.set i ⟨false, FactoryPhase.done
                (Snapshot.mk f.nextSnapshotId
                  (infos.map fun info => getSlingshotAppProjectId info.paratextId))⟩)
              none := by
            refine ⟨hinv.loggedOut, ?_, ?_, ?_, ?_, ?_, ?_, ?_⟩
            · have := hinv.snap0Lt
              dsimp only
              omega
            · dsimp only
              omega
            · intro j t2 hj
              by_cases hij : i = j
              · subst hij
                rw [getElemQ_set_self ts i _ _ hti] at hj
                cases hj
                rfl
              · rw [List.getElem?_set_ne hij] at hj
                exact hinv.forceAll j t2 hj
            · intro i0 hh
              cases hh
            · intro j t2 hj hapi
              by_cases hij : i = j
              · subst hij
                rw [getElemQ_set_self ts i _ _ hti] at hj
                cases hj
                simp at hapi
              · rw [List.getElem?_set_ne hij] at hj
                have h2 := hinv.apiHolder j t2 hj hapi
                cases h2
                exact absurd rfl hij
            · intro htime2
              dsimp only at htime2
              exact absurd htime2 hnow0
            · intro _
              refine ⟨by dsimp only; omega, ?_, ?_⟩
              · dsimp only
                have := hinv.snap0Lt
                omega
              · intro j t2 hj
                by_cases hij : i = j
                · subst hij
                  rw [getElemQ_set_self ts i _ _ hti] at hj
                  cases hj
                  exact Or.inr (Or.inr rfl)
                · rw [List.getElem?_set_ne hij] at hj
                  rcases hphases j t2 hj with h2 | h2 | h2
                  · exact Or.inl h2
                  · exact Or.inr (Or.inl h2)
                  · exfalso
                    have h3 := hinv.apiHolder j t2 hj h2
                    cases h3
                    exact absurd rfl hij
          have hih := ih _ _ none hinv2 hrest
          refine ⟨hih.1, ?_⟩
          have heq := hih.2
          simp [apiCallsIssued, htime, hnow0] at heq ⊢
          omega
        · rw [runFactoryTasks_api_other f ts holder i now _ rest false hti hhold]
          exact ih f ts holder hinv hrest
      · -- done
        rw [runFactoryTasks_done f ts holder i now _ rest false res hti]
        exact ih f ts holder hinv hrest

/-- C5 (amended): N concurrent unforced `getAvailableProjects` callers inside
one throttle window, with every remote fetch succeeding, issue at most one
remote `getProjects` call, and every caller that completes receives the same
snapshot reference — the one stored by the single successful refresh;
moreover a caller that acquires the mutex after another caller already
replaced the snapshot (detected by snapshot identity) returns that newer
snapshot with no remote call of its own.  (When a fetch fails the snapshot
is not replaced, so waiting callers repeat the remote call — see the
counterexample.) -/
theorem getAvailableProjects_single_flight (f0 : FactoryState) (n T : Nat)
    (sched : List (Nat × Nat × ApiGetProjectsOutcome))
    (hT : GET_PROJECTS_THROTTLE_MS ≤ T)
    (htime0 : f0.lastGetProjectsTime = 0)
    (hlo : f0.isLoggedOut = false)
    (hsid : f0.lastAvailableProjects.sid < f0.nextSnapshotId)
    (hsched : ∀ e ∈ sched, T ≤ e.2.1 ∧ e.2.1 < T + GET_PROJECTS_THROTTLE_MS ∧
      ∃ infos, e.2.2 = ApiGetProjectsOutcome.ok infos) :
    countRemoteCalls (runFactoryTasks f0
      (List.replicate n ⟨false, FactoryPhase.entry⟩) none sched).2.2.2 ≤ 1 ∧
    (∀ (j : Nat) (t : FactoryTask),
      ((runFactoryTasks f0 (List.replicate n ⟨false, FactoryPhase.entry⟩) none
        sched).2.1)[j]? = some t → ∀ r, t.phase = FactoryPhase.done r →
        r = (runFactoryTasks f0 (List.replicate n ⟨false, FactoryPhase.entry⟩) none
          sched).1.lastAvailableProjects) ∧
    (∀ (f : FactoryState) (ts : List FactoryTask) (i now2 : Nat)
       (out : ApiGetProjectsOutcome) (captured : Snapshot),
      ts[i]? = some ⟨false, FactoryPhase.waitMutex captured⟩ →
      captured.sid ≠ f.lastAvailableProjects.sid →
      runFactoryTasks f ts none [(i, now2, out)] =
        (f, ts.set i ⟨false, FactoryPhase.done f.lastAvailableProjects⟩, none, [])) := by
  have hinv0 : StampedeInv f0.lastAvailableProjects T f0
      (List.replicate n ⟨false, FactoryPhase.entry⟩) none := by
    refine ⟨hlo, hsid, hsid, ?_, ?_, ?_, ?_, ?_⟩
    · intro j t hj
      rw [List.getElem?_replicate] at hj
      split at hj
      · cases hj; rfl
      · cases hj
    · intro i0 hh
      cases hh
    · intro j t hj hapi
      rw [List.getElem?_replicate] at hj
      split at hj
      · cases hj; cases hapi
      · cases hj
    · intro _
      refine ⟨rfl, ?_⟩
      intro j t hj
      rw [List.getElem?_replicate] at hj
      split at hj
      · cases hj; exact Or.inl rfl
      · cases hj
    · intro h2
      exact absurd htime0 h2
  have hmain := stampede_run f0.lastAvailableProjects T hT sched f0
    (List.replicate n ⟨false, FactoryPhase.entry⟩) none hinv0 hsched
  set r := runFactoryTasks f0 (List.replicate n ⟨false, FactoryPhase.entry⟩) none sched with hr
  refine ⟨?_, ?_, ?_⟩
  · have heq := hmain.2
    have hzero : apiCallsIssued f0 none = 0 := by
      simp [apiCallsIssued, htime0]
    rw [hzero] at heq
    have hle : apiCallsIssued r.1 r.2.2.1 ≤ 1 := by
      rcases hhold : r.2.2.1 with _ | h0
      · by_cases htf : r.1.lastGetProjectsTime = 0 <;> simp [apiCallsIssued, htf]
      · obtain ⟨t0, ht0, ht0api⟩ := hmain.1.holderApi h0 hhold
        by_cases htf : r.1.lastGetProjectsTime = 0
        · simp [apiCallsIssued, htf, hhold]
        · obtain ⟨_, _, hphases⟩ := hmain.1.post htf
          rcases hphases h0 t0 ht0 with h2 | h2 | h2 <;> rw [ht0api] at h2 <;>
            exact absurd h2 (by simp)
    omega
  · intro j t hj rres hdone
    by_cases htf : r.1.lastGetProjectsTime = 0
    · obtain ⟨_, hphases⟩ := hmain.1.pre htf
      rcases hphases j t hj with h2 | h2 | h2 <;> rw [hdone] at h2 <;>
        exact absurd h2 (by simp)
    · obtain ⟨_, _, hphases⟩ := hmain.1.post htf
      rcases hphases j t hj with h2 | h2 | h2 <;> rw [hdone] at h2
      · exact absurd h2 (by simp)
      · exact absurd h2 (by simp)
      · injection h2 with h3
  · intro f ts i now2 out captured hti hsid2
    rw [runFactoryTasks_wait_recheck f ts i now2 out [] captured hti hsid2]
    simp [runFactoryTasks]

/-- The stampede scenario in which the remote fetch fails: two concurrent
unforced callers on a stale cache, the first caller's fetch throwing, then
the second caller acquiring the mutex, passing the identity re-check
(nothing replaced the snapshot) and fetching — and failing — again. -/
def stampedeFailureRun :
    FactoryState × List FactoryTask × Option Nat × List FactoryEffect :=
  runFactoryTasks initialFactoryState
    [⟨false, FactoryPhase.entry⟩, ⟨false, FactoryPhase.entry⟩] none
    [(0, 10000, ApiGetProjectsOutcome.threw "network error"),
     (1, 10000, ApiGetProjectsOutcome.threw "network error"),
     (0, 10000, ApiGetProjectsOutcome.threw "network error"),
     (1, 10000, ApiGetProjectsOutcome.threw "network error"),
     (0, 10000, ApiGetProjectsOutcome.threw "network error"),
     (1, 10000, ApiGetProjectsOutcome.threw "network error"),
     (1, 10000, ApiGetProjectsOutcome.threw "network error")]

/-- C5 counterexample: when the remote fetch fails, the snapshot is not
replaced, so the identity re-check does not stop the second concurrent
caller — two remote `getProjects` calls are issued in one stampede and the
two callers receive two distinct (fresh empty) snapshot references. -/
theorem stampede_failure_two_remote_calls :
    countRemoteCalls stampedeFailureRun.2.2.2 = 2 ∧
    stampedeFailureRun.2.1 =
      [⟨false, FactoryPhase.done ⟨1, []⟩⟩, ⟨false, FactoryPhase.done ⟨2, []⟩⟩] ∧
    ¬ countRemoteCalls stampedeFailureRun.2.2.2 ≤ 1 := by
  decide

/-- Witness for `getAvailableProjects_single_flight`: two concurrent callers
on the fresh factory state, both remote calls answered successfully at
`t = 5000`; one remote call happens. -/
theorem getAvailableProjects_single_flight_witness :
    countRemoteCalls (runFactoryTasks initialFactoryState
      (List.replicate 2 ⟨false, FactoryPhase.entry⟩) none
      [(0, 5000, ApiGetProjectsOutcome.ok [⟨"p1"⟩]),
       (1, 5000, ApiGetProjectsOutcome.ok [⟨"p1"⟩]),
       (0, 5000, ApiGetProjectsOutcome.ok [⟨"p1"⟩]),
       (1, 5000, ApiGetProjectsOutcome.ok [⟨"p1"⟩]),
       (0, 5000, ApiGetProjectsOutcome.ok [⟨"p1"⟩]),
       (1, 5000, ApiGetProjectsOutcome.ok [⟨"p1"⟩])]).2.2.2 ≤ 1 :=
  (getAvailableProjects_single_flight initialFactoryState 2 5000
    [(0, 5000, ApiGetProjectsOutcome.ok [⟨"p1"⟩]),
     (1, 5000, ApiGetProjectsOutcome.ok [⟨"p1"⟩]),
     (0, 5000, ApiGetProjectsOutcome.ok [⟨"p1"⟩]),
     (1, 5000, ApiGetProjectsOutcome.ok [⟨"p1"⟩]),
     (0, 5000, ApiGetProjectsOutcome.ok [⟨"p1"⟩]),
     (1, 5000, ApiGetProjectsOutcome.ok [⟨"p1"⟩])]
    (by decide) rfl rfl (by decide)
    (by
      intro e he
      fin_cases he <;> exact ⟨by decide, by decide, ⟨[⟨"p1"⟩], rfl⟩⟩)).1
